import Mathlib

/-!
Verification development for the Sheepshead rules engine.

Shallow embedding of the TypeScript sources:
* `src/unnamed/part_001` (`types.ts`): the data model,
* `src/unnamed/part_002` (`gameUtils.ts` / `aiUtils.ts`): deck construction,
  dealing, card power, trick resolution, play validation, scoring,
* `src/src/contexts/GameContext.tsx`: the `gameReducer` state machine.

Modelling conventions:
* JavaScript `number`s used here are natural numbers (all quantities involved
  are non-negative integers; no overflow is reachable with 32 cards).
* `findIndex` is modelled by `findIdxJS`, returning `-1 : Int` when absent,
  exactly as in JavaScript.
* The `Math.random()` draws consumed by the Fisher-Yates shuffle are passed
  in explicitly as a list of indices (`js`), so every run of the source
  corresponds to some choice of `js`.
* `uuidv4()`, `Date.now()`, the append-only event log and the best-effort
  `saveGameState` persistence calls are omitted: they influence no other
  field of the state. The `RESET_GAME` / `LOAD_GAME` reducer cases, which
  replace the state wholesale from outside the round flow, are likewise
  outside the modelled action type.
* Indexing a JavaScript array out of range yields `undefined` and the source
  would fault on the subsequent member access; those (unreachable for
  non-empty player lists) paths are modelled by returning the state
  unchanged, and are marked by comments below.
-/

namespace Sheepshead

/-- `Suit` from types.ts, in `Object.values` order. -/
inductive Suit
  | CLUBS
  | SPADES
  | HEARTS
  | DIAMONDS
deriving DecidableEq, Repr

/-- `Rank` from types.ts, in `Object.values` order. -/
inductive Rank
  | SEVEN
  | EIGHT
  | NINE
  | TEN
  | JACK
  | QUEEN
  | KING
  | ACE
deriving DecidableEq, Repr

/-- `Card` from types.ts: suit, rank, derived point value and trump flag
(both stored on the object, as in the source). -/
structure Card where
  suit : Suit
  rank : Rank
  value : Nat
  isTrump : Bool
deriving DecidableEq, Repr

/-- `Player` from types.ts (the unused `avatar` field is omitted). -/
structure Player where
  id : String
  name : String
  cards : List Card
  score : Nat
  isDealer : Bool
  isPicker : Bool := false
  partner : Option String := none
  tricksWon : List (List Card)
  isHuman : Bool
deriving DecidableEq, Repr

/-- `GamePhase` from types.ts. -/
inductive GamePhase
  | DEALING
  | PICKING
  | BURYING
  | CALLING_PARTNER
  | PLAYING
  | SCORING
  | GAME_OVER
deriving DecidableEq, Repr

/-- `GameState` from types.ts (the event log is omitted, see the header). -/
structure GameState where
  gameId : String
  players : List Player
  currentTurn : String
  phase : GamePhase
  deck : List Card
  buried : List Card
  currentTrick : List Card
  leadSuit : Option Suit := none
  roundNumber : Nat
  trickNumber : Nat
  isLeaster : Bool
  isDoubler : Bool
  isReDoubler : Bool
  calledAce : Option Card := none
deriving DecidableEq, Repr

/-- JavaScript `Array.prototype.findIndex`: `-1` when no element matches. -/
def findIdxJS (p : α → Bool) (l : List α) : Int :=
  match l.findIdx? p with
  | some i => (i : Int)
  | none => -1

/-- Replace the element at index `i` by `f` of it (identity out of range). -/
def updateAt : List α → Nat → (α → α) → List α
  | [], _, _ => []
  | a :: as, 0, f => f a :: as
  | a :: as, n + 1, f => a :: updateAt as n f

/-- JavaScript `Array.prototype.map((x, idx) => ...)`. -/
def mapIdxAux (f : Nat → α → β) : Nat → List α → List β
  | _, [] => []
  | i, a :: as => f i a :: mapIdxAux f (i + 1) as

/-- JavaScript `Array.prototype.map((x, idx) => ...)` starting at index 0. -/
def mapWithIndex (f : Nat → α → β) (l : List α) : List β :=
  mapIdxAux f 0 l

/-! ## gameUtils.ts: card model and deck -/

/-- `isCardTrump` from gameUtils.ts: queens, jacks and all diamonds. -/
def isCardTrump (rank : Rank) (suit : Suit) : Bool :=
  rank = Rank.QUEEN || rank = Rank.JACK || suit = Suit.DIAMONDS

/-- `getCardValue` from gameUtils.ts. -/
def getCardValue (rank : Rank) (_suit : Suit) : Nat :=
  match rank with
  | Rank.ACE => 11
  | Rank.TEN => 10
  | Rank.KING => 4
  | Rank.QUEEN => 3
  | Rank.JACK => 2
  | _ => 0

/-- A card as constructed inside `initializeDeck`. -/
def mkCard (suit : Suit) (rank : Rank) : Card :=
  { suit := suit, rank := rank, value := getCardValue rank suit,
    isTrump := isCardTrump rank suit }

def allSuits : List Suit := [.CLUBS, .SPADES, .HEARTS, .DIAMONDS]

def allRanks : List Rank :=
  [.SEVEN, .EIGHT, .NINE, .TEN, .JACK, .QUEEN, .KING, .ACE]

/-- The 32-card deck built by `initializeDeck` before its shuffle:
`Object.values(Suit)` outer loop, `Object.values(Rank)` inner loop. -/
def deckBase : List Card :=
  allSuits.flatMap (fun s => allRanks.map (fun r => mkCard s r))

/-- Swap the elements at indices `i` and `j` (identity out of range). -/
def swapAt (l : List α) (i j : Nat) : List α :=
  match l[i]?, l[j]? with
  | some a, some b => (l.set i b).set j a
  | _, _ => l

/-- The Fisher-Yates loop of `shuffle` from gameUtils.ts, over explicit
`(i, j)` pairs. -/
def fyLoop : List (Nat × Nat) → List α → List α
  | [], d => d
  | (i, j) :: rest, d => fyLoop rest (swapAt d i j)

/-- `shuffle` from gameUtils.ts with the `Math.floor(Math.random() * (i + 1))`
draws passed in as `js`: `i` runs from `length - 1` down to `1`. -/
def shuffleWith (js : List Nat) (deck : List α) : List α :=
  fyLoop ((((List.range (deck.length - 1)).map (· + 1)).reverse).zip js) deck

/-- `initializeDeck` from gameUtils.ts: the fresh deck, shuffled with the
random draws `js`. -/
def initDeck (js : List Nat) : List Card :=
  shuffleWith js deckBase

/-- Append a card to a player's hand (`updatedPlayers[idx].cards.push(...)`). -/
def pushCard (c : Card) (pl : Player) : Player :=
  { pl with cards := pl.cards ++ [c] }

/-- The dealing loop of `dealCards`: hand out the deck one card at a time to
the player indices in `targets`, skipping once the deck is empty. -/
def dealLoop : List Nat → List Card → List Player → List Player × List Card
  | [], deck, ps => (ps, deck)
  | _ :: rest, [], ps => dealLoop rest [] ps
  | i :: rest, c :: deck, ps => dealLoop rest deck (updateAt ps i (pushCard c))

/-- The player index targeted by loop indices `(i, p)` of `dealCards`:
`(players.findIndex(isDealer) + 1 + p) % numPlayers`, flattened in loop
order (`i` outer, `p` inner). -/
def dealTargets (dealerIdx : Int) (n cardsPerPlayer : Nat) : List Nat :=
  (List.range cardsPerPlayer).flatMap (fun _ =>
    (List.range n).map (fun (p : Nat) =>
      ((dealerIdx + 1 + (p : Int)) % (n : Int)).toNat))

/-- `dealCards` from gameUtils.ts. -/
def dealCards (deck : List Card) (players : List Player) :
    List Player × List Card :=
  let n := players.length
  let cardsPerPlayer := if n = 5 then 6 else 10
  let dealerIdx := findIdxJS (·.isDealer) players
  dealLoop (dealTargets dealerIdx n cardsPerPlayer) deck players

/-! ## gameUtils.ts: rule engine -/

/-- `getCardPower` from gameUtils.ts. -/
def getCardPower (card : Card) : Nat :=
  if card.isTrump then
    match card.rank, card.suit with
    | Rank.QUEEN, Suit.CLUBS => 31
    | Rank.QUEEN, Suit.SPADES => 30
    | Rank.QUEEN, Suit.HEARTS => 29
    | Rank.QUEEN, Suit.DIAMONDS => 28
    | Rank.JACK, Suit.CLUBS => 27
    | Rank.JACK, Suit.SPADES => 26
    | Rank.JACK, Suit.HEARTS => 25
    | Rank.JACK, Suit.DIAMONDS => 24
    | Rank.ACE, Suit.DIAMONDS => 23
    | Rank.TEN, Suit.DIAMONDS => 22
    | Rank.KING, Suit.DIAMONDS => 21
    | Rank.NINE, Suit.DIAMONDS => 20
    | Rank.EIGHT, Suit.DIAMONDS => 19
    | Rank.SEVEN, Suit.DIAMONDS => 18
    | _, _ => 0
  else
    match card.rank with
    | Rank.ACE => 7
    | Rank.TEN => 6
    | Rank.KING => 5
    | Rank.NINE => 2
    | Rank.EIGHT => 1
    | Rank.SEVEN => 0
    | _ => 0

/-- `calculatePoints` from gameUtils.ts (a left `reduce` over the cards). -/
def calculatePoints (cards : List Card) : Nat :=
  cards.foldl (fun total card => total + card.value) 0

/-- One step of the winning-card loop in `determineTrickWinner`:
the accumulator holds the current `(winningCard, winningIndex)`. -/
def beatStep (leadSuit : Suit) (acc : Card × Nat) (card : Card) (i : Nat) :
    Card × Nat :=
  let winningCard := acc.1
  if card.isTrump && !winningCard.isTrump then (card, i)
  else if card.isTrump && winningCard.isTrump &&
      getCardPower winningCard < getCardPower card then (card, i)
  else if !card.isTrump && !winningCard.isTrump && card.suit = leadSuit &&
      getCardPower winningCard < getCardPower card then (card, i)
  else acc

/-- The `(winningCard, winningIndex)` computed by the loop of
`determineTrickWinner` over a non-empty trick `c0 :: rest`. -/
def winningOfTrick (leadSuit : Suit) (c0 : Card) (rest : List Card) :
    Card × Nat :=
  (rest.enumFrom 1).foldl (fun acc ic => beatStep leadSuit acc ic.2 ic.1) (c0, 0)

/-- `determineTrickWinner` from gameUtils.ts, including its final
seat computation
`(players.findIndex(p => p.id === players[winningIndex].id) + winningIndex) % players.length`. -/
def determineTrickWinner (trick : List Card) (leadSuit : Suit)
    (players : List Player) : String :=
  match trick with
  | [] => ""
  | c0 :: rest =>
    let winningIndex := (winningOfTrick leadSuit c0 rest).2
    match players[winningIndex]? with
    | none => ""  -- out-of-range access: the source faults here
    | some wp =>
      match players.findIdx? (fun p => p.id = wp.id) with
      | none => ""  -- unreachable: `wp` itself is a member
      | some startPlayerIndex =>
        let winnerIndex := (startPlayerIndex + winningIndex) % players.length
        match players[winnerIndex]? with
        | none => ""  -- unreachable: `winnerIndex < players.length`
        | some pw => pw.id

/-- The result record of `calculateGameScore` (field names as in the source,
including its `isPicKerTeamWinner` spelling). -/
structure GameScore where
  pickerTeamScore : Nat
  defenderTeamScore : Nat
  isPicKerTeamWinner : Bool
  pointsWon : Nat
deriving DecidableEq, Repr

/-- Membership test of the picker team used throughout GameContext.tsx and
`calculateGameScore`: the picker, or the player named as the picker's
partner. -/
def onPickerTeam (players : List Player) (p : Player) : Bool :=
  p.isPicker || ((players.find? (·.isPicker)).bind (·.partner)) = some p.id

/-- Trick points accumulated by one player
(`player.tricksWon.reduce((total, trick) => total + calculatePoints(trick), 0)`). -/
def trickPts (p : Player) : Nat :=
  p.tricksWon.foldl (fun total trick => total + calculatePoints trick) 0

/-- `calculateGameScore` from gameUtils.ts. -/
def calculateGameScore (gameState : GameState) : GameScore :=
  let pickerTeam := gameState.players.filter (onPickerTeam gameState.players)
  let defenderTeam :=
    gameState.players.filter (fun p => !onPickerTeam gameState.players p)
  let pickerTeamScore0 := pickerTeam.foldl (fun acc p => acc + trickPts p) 0
  let defenderTeamScore := defenderTeam.foldl (fun acc p => acc + trickPts p) 0
  let pickerTeamScore :=
    if 0 < gameState.buried.length then
      pickerTeamScore0 + calculatePoints gameState.buried
    else pickerTeamScore0
  let isPicKerTeamWinner := decide (61 ≤ pickerTeamScore)
  { pickerTeamScore := pickerTeamScore,
    defenderTeamScore := defenderTeamScore,
    isPicKerTeamWinner := isPicKerTeamWinner,
    pointsWon :=
      if isPicKerTeamWinner then pickerTeamScore else defenderTeamScore }

/-- `isValidPlay` from gameUtils.ts. -/
def isValidPlay (card : Card) (player : Player) (trick : List Card)
    (leadSuit : Option Suit) : Bool :=
  if trick.isEmpty then true
  else
    -- "Must follow suit if possible"
    let reject1 :=
      match leadSuit with
      | some ls =>
        if !card.isTrump then
          (player.cards.any (fun c => !c.isTrump && c.suit = ls)) &&
            card.suit ≠ ls
        else false
      | none => false
    if reject1 then false
    else
      -- "Must play trump if you can't follow suit and have trump"
      let reject2 :=
        match leadSuit, trick.head? with
        | some _, some c0 =>
          if c0.isTrump && !card.isTrump then
            player.cards.any (·.isTrump)
          else false
        | _, _ => false
      if reject2 then false else true

/-! ## GameContext.tsx: the state machine -/

/-- The roster entries handed to `START_GAME`
(`Omit<Player, 'cards' | 'score' | 'isDealer' | 'tricksWon'>`). -/
structure PlayerSeed where
  id : String
  name : String
  isHuman : Bool
deriving DecidableEq, Repr

/-- The reducer's action type (`RESET_GAME` / `LOAD_GAME` excluded, see the
header).  `startGame` carries the shuffle's random draws explicitly. -/
inductive Action
  | startGame (seeds : List PlayerSeed) (js : List Nat)
  | pickBlind (playerId : String)
  | passBlind (playerId : String)
  | buryCards (playerId : String) (cards : List Card)
  | callPartner (playerId : String) (partnerId : String)
  | playCard (playerId : String) (card : Card)
  | nextPlayer
  | endTrick
  | endRound
  | endGame
deriving DecidableEq, Repr

/-- The reducer's `initialState` constant. -/
def initialState : GameState :=
  { gameId := "", players := [], currentTurn := "",
    phase := GamePhase.GAME_OVER, deck := [], buried := [],
    currentTrick := [], leadSuit := none, roundNumber := 0, trickNumber := 0,
    isLeaster := false, isDoubler := false, isReDoubler := false,
    calledAce := none }

/-- The per-seed player initialisation inside `START_GAME`
(`{ ...player, cards: [], score: 0, isDealer: index === 0, tricksWon: [] }`). -/
def seedPlayer (index : Nat) (seed : PlayerSeed) : Player :=
  { id := seed.id, name := seed.name, cards := [], score := 0,
    isDealer := index = 0, isPicker := false, partner := none,
    tricksWon := [], isHuman := seed.isHuman }

/-- `START_GAME`: fresh shuffled deck, deal, dealer = index 0, turn = seat
after the dealer, phase PICKING.  The `uuidv4()` game id is modelled by a
constant. -/
def startGameStep (s : GameState) (seeds : List PlayerSeed) (js : List Nat) :
    GameState :=
  let deck := initDeck js
  let initializedPlayers := mapWithIndex seedPlayer seeds
  let dealt := dealCards deck initializedPlayers
  let players := dealt.1
  let startingPlayerIndex :=
    ((findIdxJS (·.isDealer) players + 1) % (players.length : Int)).toNat
  let currentTurn :=
    match players[startingPlayerIndex]? with
    | some p => p.id
    | none => s.currentTurn  -- empty roster: the source faults here
  { s with
    gameId := "game"
    players := players
    currentTurn := currentTurn
    phase := GamePhase.PICKING
    deck := dealt.2
    buried := []
    currentTrick := []
    roundNumber := 1
    trickNumber := 0
    isLeaster := false
    isDoubler := false
    isReDoubler := false }

/-- `PICK_BLIND`: any existing player may pick while the phase is PICKING
(the reducer checks only `playerIndex === -1` and the phase); the blind is
merged into their hand. -/
def pickBlindStep (s : GameState) (playerId : String) : GameState :=
  match s.players.findIdx? (fun p => p.id = playerId) with
  | none => s
  | some playerIndex =>
    if s.phase ≠ GamePhase.PICKING then s
    else
      let updatedPlayers := mapWithIndex (fun idx player =>
        if idx = playerIndex then
          { player with isPicker := true, cards := player.cards ++ s.deck }
        else player) s.players
      { s with
        players := updatedPlayers
        deck := []
        phase := GamePhase.BURYING }

/-- `PASS_BLIND`: seat after the actor becomes the player-to-act; if that
seat is the dealer's, phase PLAYING with `isLeaster = true` (and the turn is
the dealer's seat). -/
def passBlindStep (s : GameState) (playerId : String) : GameState :=
  if s.phase ≠ GamePhase.PICKING then s
  else
    let currentPlayerIndex := findIdxJS (fun p => p.id = playerId) s.players
    let nextPlayerIndex :=
      ((currentPlayerIndex + 1) % (s.players.length : Int)).toNat
    match s.players[nextPlayerIndex]? with
    | none => s  -- empty roster: the source faults here
    | some nextPlayer =>
      let isLastPlayer :=
        (nextPlayerIndex : Int) = findIdxJS (·.isDealer) s.players
      if isLastPlayer then
        { s with
          currentTurn := nextPlayer.id
          phase := GamePhase.PLAYING
          isLeaster := true }
      else
        { s with currentTurn := nextPlayer.id }

/-- `BURY_CARDS`: requires phase BURYING, exactly two cards, and the actor to
be the picker; removes hand cards matching the given suit-rank pairs and
installs the given cards as the buried pile (whether or not they came from
the hand). -/
def buryCardsStep (s : GameState) (playerId : String) (cards : List Card) :
    GameState :=
  if s.phase ≠ GamePhase.BURYING ∨ cards.length ≠ 2 then s
  else
    match s.players.findIdx? (fun p => p.id = playerId && p.isPicker) with
    | none => s
    | some pickerIndex =>
      match s.players[pickerIndex]? with
      | none => s  -- unreachable: `findIdx?` returned an in-range index
      | some picker =>
        let remainingCards := picker.cards.filter (fun card =>
          !(cards.any (fun c => c.suit = card.suit && c.rank = card.rank)))
        let updatedPlayers := mapWithIndex (fun idx player =>
          if idx = pickerIndex then { player with cards := remainingCards }
          else player) s.players
        let shouldCallPartner := updatedPlayers.length = 5
        { s with
          players := updatedPlayers
          buried := cards
          phase := if shouldCallPartner then GamePhase.CALLING_PARTNER
                   else GamePhase.PLAYING }

/-- `CALL_PARTNER`: requires phase CALLING_PARTNER and the actor to be the
picker; records the partner id on the picker. -/
def callPartnerStep (s : GameState) (playerId partnerId : String) :
    GameState :=
  if s.phase ≠ GamePhase.CALLING_PARTNER then s
  else
    match s.players.findIdx? (·.isPicker) with
    | none => s
    | some pickerIndex =>
      match s.players[pickerIndex]? with
      | none => s  -- unreachable
      | some picker =>
        if picker.id ≠ playerId then s
        else
          let updatedPlayers := mapWithIndex (fun idx player =>
            if idx = pickerIndex then { player with partner := some partnerId }
            else player) s.players
          { s with players := updatedPlayers, phase := GamePhase.PLAYING }

/-- The leaster winner fold of `END_ROUND`: running maximum of trick points
(strict improvement) with the matching player id, from `(0, '')`. -/
def leasterResult (players : List Player) : Nat × String :=
  players.foldl
    (fun acc p => if acc.1 < trickPts p then (trickPts p, p.id) else acc)
    (0, "")

/-- `END_ROUND`: score the round (winning team members only, or the leaster
high scorer), rotate the dealer, reset the round-scoped player fields and
move to SCORING. -/
def endRoundStep (s : GameState) : GameState :=
  let gs := calculateGameScore s
  let picker := s.players.find? (·.isPicker)
  let updatedPlayers := s.players.map (fun player =>
    if !s.isLeaster then
      match picker with
      | some pk =>
        let isPickerTeam := player.isPicker || pk.partner = some player.id
        if (isPickerTeam && gs.isPicKerTeamWinner) ||
            (!isPickerTeam && !gs.isPicKerTeamWinner) then
          { player with score := player.score +
              (if isPickerTeam then gs.pickerTeamScore
               else gs.defenderTeamScore) }
        else player
      | none => player
    else
      let lr := leasterResult s.players
      if player.id = lr.2 then { player with score := player.score + lr.1 }
      else player)
  let newDealerIndex :=
    ((findIdxJS (·.isDealer) s.players + 1) % (s.players.length : Int)).toNat
  let rotatedPlayers := mapWithIndex (fun idx player =>
    { player with
      isDealer := idx = newDealerIndex
      isPicker := false
      partner := none
      cards := []
      tricksWon := [] }) updatedPlayers
  let currentTurn :=
    match rotatedPlayers[newDealerIndex]? with
    | some p => p.id
    | none => s.currentTurn  -- empty roster: the source faults here
  { s with
    players := rotatedPlayers
    currentTurn := currentTurn
    phase := GamePhase.SCORING
    roundNumber := s.roundNumber + 1
    trickNumber := 0
    isLeaster := false }

/-- `END_TRICK`: requires a full trick; awards it to the trick winner,
clears the trick and lead suit, and when the first player's hand is empty
cascades into `END_ROUND`. -/
def endTrickStep (s : GameState) : GameState :=
  if s.currentTrick.length ≠ s.players.length then s
  else
    let winnerId := determineTrickWinner s.currentTrick
      (s.leadSuit.getD Suit.CLUBS) s.players
    let updatedPlayers := s.players.map (fun player =>
      if player.id = winnerId then
        { player with tricksWon := player.tricksWon ++ [s.currentTrick] }
      else player)
    match updatedPlayers.head? with
    | none => s  -- empty roster: the source faults here
    | some p0 =>
      let newState := { s with
        players := updatedPlayers
        currentTrick := []
        leadSuit := none
        currentTurn := winnerId
        trickNumber := s.trickNumber + 1 }
      if p0.cards.isEmpty then endRoundStep newState else newState

/-- `PLAY_CARD`: requires phase PLAYING, the actor to be the player-to-act
and `isValidPlay`; removes matching cards from the hand, appends the card to
the trick, sets the lead suit on a plain-suited lead, advances the turn, and
cascades into `END_TRICK` when the trick is full. -/
def playCardStep (s : GameState) (playerId : String) (card : Card) :
    GameState :=
  if s.phase ≠ GamePhase.PLAYING ∨ s.currentTurn ≠ playerId then s
  else
    match s.players.findIdx? (fun p => p.id = playerId) with
    | none => s
    | some playerIndex =>
      match s.players[playerIndex]? with
      | none => s  -- unreachable
      | some player =>
        if !isValidPlay card player s.currentTrick s.leadSuit then s
        else
          let updatedPlayers := mapWithIndex (fun idx p =>
            if idx = playerIndex then
              { p with cards := p.cards.filter (fun c =>
                  !(c.suit = card.suit && c.rank = card.rank)) }
            else p) s.players
          let updatedTrick := s.currentTrick ++ [card]
          let updatedLeadSuit :=
            if s.currentTrick.length = 0 && !card.isTrump then some card.suit
            else s.leadSuit
          let nextPlayerIndex := (playerIndex + 1) % s.players.length
          let currentTurn :=
            match s.players[nextPlayerIndex]? with
            | some p => p.id
            | none => s.currentTurn  -- unreachable: players is non-empty
          let newState := { s with
            players := updatedPlayers
            currentTrick := updatedTrick
            currentTurn := currentTurn
            leadSuit := updatedLeadSuit }
          if updatedTrick.length = s.players.length then endTrickStep newState
          else newState

/-- `NEXT_PLAYER`: advance the turn to the next seat. -/
def nextPlayerStep (s : GameState) : GameState :=
  match s.players.findIdx? (fun p => p.id = s.currentTurn) with
  | none => s
  | some currentPlayerIndex =>
    let nextPlayerIndex := (currentPlayerIndex + 1) % s.players.length
    match s.players[nextPlayerIndex]? with
    | none => s  -- unreachable: players is non-empty
    | some p => { s with currentTurn := p.id }

/-- `END_GAME`: move to GAME_OVER. -/
def endGameStep (s : GameState) : GameState :=
  { s with phase := GamePhase.GAME_OVER }

/-- `gameReducer` from GameContext.tsx: dispatch on the action tag.  The
source's recursive `gameReducer(newState, { type: 'END_TRICK' })` calls are
the `endTrickStep` / `endRoundStep` cascades above. -/
def gameReducer (s : GameState) (a : Action) : GameState :=
  match a with
  | .startGame seeds js => startGameStep s seeds js
  | .pickBlind pid => pickBlindStep s pid
  | .passBlind pid => passBlindStep s pid
  | .buryCards pid cards => buryCardsStep s pid cards
  | .callPartner pid partnerId => callPartnerStep s pid partnerId
  | .playCard pid card => playCardStep s pid card
  | .nextPlayer => nextPlayerStep s
  | .endTrick => endTrickStep s
  | .endRound => endRoundStep s
  | .endGame => endGameStep s

/-! ## Derived count and reachability notions -/

/-- Total number of cards held in hands. -/
def handSizeSum (ps : List Player) : Nat :=
  (ps.map (fun p => p.cards.length)).sum

/-- Total number of cards inside won tricks. -/
def tricksSizeSum (ps : List Player) : Nat :=
  (ps.map (fun p => (p.tricksWon.map List.length).sum)).sum

/-- The card-conservation quantity of the spec:
hands + blind + buried + current trick + won tricks. -/
def cardSum (s : GameState) : Nat :=
  handSizeSum s.players + s.deck.length + s.buried.length +
    s.currentTrick.length + tricksSizeSum s.players

/-! ## Helper lemmas about the list combinators -/

theorem updateAt_length (l : List α) (i : Nat) (f : α → α) :
    (updateAt l i f).length = l.length := by
  induction l generalizing i with
  | nil => rfl
  | cons a as ih =>
    cases i with
    | zero => rfl
    | succ n => simp [updateAt, ih]

theorem map_updateAt_invariant (l : List α) (i : Nat) (f : α → α)
    (g : α → β) (hf : ∀ a, g (f a) = g a) :
    (updateAt l i f).map g = l.map g := by
  induction l generalizing i with
  | nil => rfl
  | cons a as ih =>
    cases i with
    | zero => simp [updateAt, hf]
    | succ n => simp [updateAt, ih]

theorem sum_map_updateAt_add (l : List α) (i : Nat) (f : α → α)
    (g : α → Nat) (k : Nat) (hi : i < l.length)
    (hf : ∀ a, g (f a) = g a + k) :
    ((updateAt l i f).map g).sum = (l.map g).sum + k := by
  induction l generalizing i with
  | nil => simp at hi
  | cons a as ih =>
    cases i with
    | zero => simp [updateAt, hf]; omega
    | succ n =>
      simp only [updateAt, List.map_cons, List.sum_cons]
      have := ih n (by simpa using hi)
      omega

theorem sum_map_updateAt_get (l : List α) (i : Nat) (f : α → α)
    (g : α → Nat) (a : α) (ha : l[i]? = some a) :
    ((updateAt l i f).map g).sum + g a = (l.map g).sum + g (f a) := by
  induction l generalizing i with
  | nil => simp at ha
  | cons x xs ih =>
    cases i with
    | zero =>
      simp only [List.getElem?_cons_zero, Option.some_inj] at ha
      subst ha
      simp [updateAt]; omega
    | succ n =>
      simp only [List.getElem?_cons_succ] at ha
      simp only [updateAt, List.map_cons, List.sum_cons]
      have := ih n ha
      omega

theorem mapIdxAux_eq_updateAt (l : List α) (g : α → α) (j i : Nat) :
    mapIdxAux (fun idx p => if idx = j then g p else p) i l =
      if j < i then l else updateAt l (j - i) g := by
  induction l generalizing i with
  | nil => simp [mapIdxAux, updateAt]
  | cons a as ih =>
    simp only [mapIdxAux, ih (i + 1)]
    rcases Nat.lt_trichotomy j i with h | h | h
    · rw [if_neg (by omega : ¬i = j), if_pos (by omega : j < i + 1),
        if_pos h]
    · subst h
      rw [if_pos rfl, if_pos (by omega : j < j + 1),
        if_neg (by omega : ¬j < j)]
      have hj : j - j = 0 := by omega
      rw [hj]
      rfl
    · rw [if_neg (by omega : ¬i = j), if_neg (by omega : ¬j < i + 1),
        if_neg (by omega : ¬j < i)]
      have hj : j - i = (j - (i + 1)) + 1 := by omega
      rw [hj]
      rfl

theorem mapWithIndex_eq_updateAt (l : List α) (g : α → α) (j : Nat) :
    mapWithIndex (fun idx p => if idx = j then g p else p) l =
      updateAt l j g := by
  simpa [mapWithIndex] using mapIdxAux_eq_updateAt l g j 0

theorem mapIdxAux_length (f : Nat → α → β) (l : List α) (i : Nat) :
    (mapIdxAux f i l).length = l.length := by
  induction l generalizing i with
  | nil => rfl
  | cons a as ih => simp [mapIdxAux, ih]

theorem mapWithIndex_length (f : Nat → α → β) (l : List α) :
    (mapWithIndex f l).length = l.length :=
  mapIdxAux_length f l 0

theorem mapIdxAux_getElem? (f : Nat → α → β) (l : List α) (i k : Nat) :
    (mapIdxAux f i l)[k]? = (l[k]?).map (f (i + k)) := by
  induction l generalizing i k with
  | nil => simp [mapIdxAux]
  | cons a as ih =>
    cases k with
    | zero => simp [mapIdxAux]
    | succ n =>
      simp only [mapIdxAux, List.getElem?_cons_succ, ih (i + 1) n]
      have : i + 1 + n = i + (n + 1) := by omega
      rw [this]

theorem mapWithIndex_getElem? (f : Nat → α → β) (l : List α) (k : Nat) :
    (mapWithIndex f l)[k]? = (l[k]?).map (f k) := by
  simpa [mapWithIndex] using mapIdxAux_getElem? f l 0 k

theorem foldl_add_eq_sum (l : List α) (f : α → Nat) (n : Nat) :
    l.foldl (fun acc x => acc + f x) n = n + (l.map f).sum := by
  induction l generalizing n with
  | nil => simp
  | cons a as ih => simp [ih]; omega

theorem length_filter_not_add_countP (l : List α) (p : α → Bool) :
    (l.filter (fun a => !p a)).length + l.countP p = l.length := by
  induction l with
  | nil => rfl
  | cons a as ih =>
    by_cases h : p a
    · simp [List.filter_cons, List.countP_cons, h]; omega
    · simp only [List.filter_cons, List.countP_cons, h]
      simp [h] at *
      omega

theorem map_ite_not_mem (l : List α) (p : α → Bool) (g : α → α)
    (h : ∀ a ∈ l, p a = false) :
    l.map (fun a => if p a then g a else a) = l := by
  induction l with
  | nil => rfl
  | cons a as ih =>
    have ha : p a = false := h a (List.mem_cons_self a as)
    rw [List.map_cons, if_neg (by simp [ha]),
      ih (fun x hx => h x (List.mem_cons_of_mem a hx))]

theorem emod_toNat_lt (a : Int) (n : Nat) (hn : 0 < n) :
    (a % (n : Int)).toNat < n := by
  have h1 : (0 : Int) < (n : Int) := by exact_mod_cast hn
  have h2 : a % (n : Int) < (n : Int) := Int.emod_lt_of_pos a h1
  have h3 : (0 : Int) ≤ a % (n : Int) := Int.emod_nonneg a (by omega)
  omega

/-! ## Conservation lemmas for shuffling and dealing -/

theorem swapAt_length (l : List α) (i j : Nat) :
    (swapAt l i j).length = l.length := by
  unfold swapAt
  cases l[i]? <;> cases l[j]? <;> simp

theorem fyLoop_length (ps : List (Nat × Nat)) (l : List α) :
    (fyLoop ps l).length = l.length := by
  induction ps generalizing l with
  | nil => rfl
  | cons p rest ih =>
    cases p with
    | mk i j => simp [fyLoop, ih, swapAt_length]

theorem shuffleWith_length (js : List Nat) (l : List α) :
    (shuffleWith js l).length = l.length := by
  simp [shuffleWith, fyLoop_length]

theorem deckBase_length : deckBase.length = 32 := by decide

theorem initDeck_length (js : List Nat) : (initDeck js).length = 32 := by
  simp [initDeck, shuffleWith_length, deckBase_length]

theorem dealLoop_players_length (ts : List Nat) (deck : List Card)
    (ps : List Player) : (dealLoop ts deck ps).1.length = ps.length := by
  induction ts generalizing deck ps with
  | nil => rfl
  | cons i rest ih =>
    cases deck with
    | nil => simpa [dealLoop] using ih [] ps
    | cons c deck' => simp [dealLoop, ih, updateAt_length]

theorem dealLoop_conserve (ts : List Nat) (deck : List Card)
    (ps : List Player) (hb : ∀ i ∈ ts, i < ps.length) :
    handSizeSum (dealLoop ts deck ps).1 + (dealLoop ts deck ps).2.length =
      handSizeSum ps + deck.length := by
  induction ts generalizing deck ps with
  | nil => rfl
  | cons i rest ih =>
    cases deck with
    | nil => simpa [dealLoop] using ih [] ps (fun j hj => hb j (by simp [hj]))
    | cons c deck' =>
      simp only [dealLoop, List.length_cons]
      have hlen : handSizeSum (updateAt ps i (pushCard c)) =
          handSizeSum ps + 1 := by
        apply sum_map_updateAt_add ps i (pushCard c)
          (fun p => p.cards.length) 1 (hb i (by simp))
        intro a
        simp [pushCard]
      have := ih deck' (updateAt ps i (pushCard c))
        (fun j hj => by
          rw [updateAt_length]
          exact hb j (by simp [hj]))
      omega

theorem dealLoop_tricks (ts : List Nat) (deck : List Card)
    (ps : List Player) :
    tricksSizeSum (dealLoop ts deck ps).1 = tricksSizeSum ps := by
  induction ts generalizing deck ps with
  | nil => rfl
  | cons i rest ih =>
    cases deck with
    | nil => simpa [dealLoop] using ih [] ps
    | cons c deck' =>
      show tricksSizeSum
        (dealLoop rest deck' (updateAt ps i (pushCard c))).1 = tricksSizeSum ps
      rw [ih]
      unfold tricksSizeSum
      rw [map_updateAt_invariant]
      intro a
      simp [pushCard]

theorem dealTargets_lt (d : Int) (n c : Nat) : ∀ i ∈ dealTargets d n c, i < n := by
  intro i hi
  simp only [dealTargets, List.mem_flatMap, List.mem_map, List.mem_range] at hi
  obtain ⟨a, ha, p, hp, hip⟩ := hi
  subst hip
  exact emod_toNat_lt _ n (by omega)

theorem dealCards_conserve (deck : List Card) (ps : List Player) :
    handSizeSum (dealCards deck ps).1 + (dealCards deck ps).2.length =
      handSizeSum ps + deck.length := by
  unfold dealCards
  exact dealLoop_conserve _ deck ps (dealTargets_lt _ _ _)

theorem dealCards_tricks (deck : List Card) (ps : List Player) :
    tricksSizeSum (dealCards deck ps).1 = tricksSizeSum ps := by
  unfold dealCards
  exact dealLoop_tricks _ deck ps

theorem sum_map_mapIdxAux_zero (f : Nat → α → β) (g : β → Nat)
    (h : ∀ i a, g (f i a) = 0) (l : List α) (i : Nat) :
    ((mapIdxAux f i l).map g).sum = 0 := by
  induction l generalizing i with
  | nil => rfl
  | cons a as ih => simp [mapIdxAux, h, ih]

theorem map_map_congr (l : List α) (f : α → α) (g : α → β)
    (h : ∀ a, g (f a) = g a) : (l.map f).map g = l.map g := by
  rw [List.map_map]
  exact List.map_congr_left (fun a _ => h a)

theorem map_ite_id (l : List α) (q : α → Prop) [DecidablePred q] (g : α → α)
    (h : ∀ a ∈ l, ¬q a) :
    l.map (fun a => if q a then g a else a) = l := by
  induction l with
  | nil => rfl
  | cons a as ih =>
    rw [List.map_cons, if_neg (h a (List.mem_cons_self a as)),
      ih (fun x hx => h x (List.mem_cons_of_mem a hx))]

/-- Awarding a trick to the unique player carrying the winner id adds exactly
`t.length` cards to the won-trick total. -/
theorem tricksSizeSum_award (l : List Player) (w : String) (t : List Card)
    (hnd : (l.map Player.id).Nodup) (hw : w ∈ l.map Player.id) :
    tricksSizeSum (l.map (fun p =>
      if p.id = w then { p with tricksWon := p.tricksWon ++ [t] } else p)) =
      tricksSizeSum l + t.length := by
  induction l with
  | nil => simp at hw
  | cons a as ih =>
    simp only [List.map_cons, List.nodup_cons] at hnd
    by_cases hA : a.id = w
    · have hnotin : ∀ p ∈ as, ¬p.id = w := by
        intro p hp hpw
        apply hnd.1
        have hmem : p.id ∈ List.map Player.id as :=
          List.mem_map_of_mem Player.id hp
        rwa [hpw, ← hA] at hmem
      unfold tricksSizeSum
      rw [List.map_cons, map_ite_id as (fun p => p.id = w) _ hnotin,
        if_pos hA]
      simp
      omega
    · have hw' : w ∈ as.map Player.id := by
        rcases List.mem_map.mp hw with ⟨p, hp, hpw⟩
        rcases List.mem_cons.mp hp with rfl | hp'
        · exact absurd hpw hA
        · exact hpw ▸ List.mem_map_of_mem Player.id hp'
      unfold tricksSizeSum at *
      rw [List.map_cons, List.map_cons, if_neg hA]
      simp only [List.map_cons, List.sum_cons]
      rw [ih hnd.2 hw']
      omega

theorem updateAt_head? (l : List α) (i : Nat) (f : α → α) :
    (updateAt l i f).head? = if i = 0 then (l.head?).map f else l.head? := by
  cases l with
  | nil => cases i <;> simp [updateAt]
  | cons a as => cases i <;> simp [updateAt]

/-- The index computed by the winning-card loop stays below the bound `k`
when the start index and all listed indices do. -/
theorem foldl_beatStep_lt (ls : Suit) (k : Nat) (l : List (Nat × Card))
    (acc : Card × Nat) (hacc : acc.2 < k) (hl : ∀ x ∈ l, x.1 < k) :
    (l.foldl (fun acc ic => beatStep ls acc ic.2 ic.1) acc).2 < k := by
  induction l generalizing acc with
  | nil => exact hacc
  | cons x xs ih =>
    apply ih
    · show (beatStep ls acc x.2 x.1).2 < k
      unfold beatStep
      dsimp only
      split_ifs <;> first
        | exact hl x (List.mem_cons_self x xs)
        | exact hacc
    · exact fun y hy => hl y (List.mem_cons_of_mem x hy)

theorem winningOfTrick_lt (ls : Suit) (c0 : Card) (rest : List Card) :
    (winningOfTrick ls c0 rest).2 < rest.length + 1 := by
  unfold winningOfTrick
  apply foldl_beatStep_lt
  · omega
  · intro x hx
    have := List.mem_enumFrom hx
    omega

/-- For a full trick over a non-empty player list, `determineTrickWinner`
returns the id of one of the players. -/
theorem determineTrickWinner_mem (trick : List Card) (ls : Suit)
    (players : List Player) (hne : trick ≠ [])
    (hlen : trick.length = players.length) :
    determineTrickWinner trick ls players ∈ players.map Player.id := by
  cases trick with
  | nil => exact absurd rfl hne
  | cons c0 rest =>
    have hwi : (winningOfTrick ls c0 rest).2 < players.length := by
      have := winningOfTrick_lt ls c0 rest
      simp only [List.length_cons] at hlen
      omega
    obtain ⟨wp, hget⟩ :
        ∃ wp, players[(winningOfTrick ls c0 rest).2]? = some wp :=
      ⟨_, List.getElem?_eq_getElem hwi⟩
    have hwpmem : wp ∈ players := by
      obtain ⟨h, rfl⟩ := List.getElem?_eq_some.mp hget
      exact List.getElem_mem h
    cases hfi : players.findIdx? (fun p => p.id = wp.id) with
    | none =>
      have := List.findIdx?_eq_none_iff.mp hfi wp hwpmem
      simp at this
    | some startPlayerIndex =>
      have hpos : 0 < players.length := by
        cases players with
        | nil => simp at hwi
        | cons _ _ => simp
      have hwmod : (startPlayerIndex + (winningOfTrick ls c0 rest).2) %
          players.length < players.length := Nat.mod_lt _ hpos
      obtain ⟨pw, hget2⟩ : ∃ pw,
          players[(startPlayerIndex + (winningOfTrick ls c0 rest).2) %
            players.length]? = some pw :=
        ⟨_, List.getElem?_eq_getElem hwmod⟩
      have hpwmem : pw ∈ players := by
        obtain ⟨h, rfl⟩ := List.getElem?_eq_some.mp hget2
        exact List.getElem_mem h
      simp only [determineTrickWinner, hget, hfi, hget2]
      exact List.mem_map_of_mem Player.id hpwmem

/-! ## Card conservation, transition by transition -/

theorem cardSum_startGame (s : GameState) (seeds : List PlayerSeed)
    (js : List Nat) : cardSum (startGameStep s seeds js) = 32 := by
  have hinitHand : handSizeSum (mapWithIndex seedPlayer seeds) = 0 :=
    sum_map_mapIdxAux_zero seedPlayer (fun p => p.cards.length)
      (fun i a => rfl) seeds 0
  have hinitTricks : tricksSizeSum (mapWithIndex seedPlayer seeds) = 0 :=
    sum_map_mapIdxAux_zero seedPlayer
      (fun p => (p.tricksWon.map List.length).sum) (fun i a => rfl) seeds 0
  have hc := dealCards_conserve (initDeck js) (mapWithIndex seedPlayer seeds)
  have ht := dealCards_tricks (initDeck js) (mapWithIndex seedPlayer seeds)
  have hd := initDeck_length js
  unfold startGameStep cardSum
  dsimp only
  simp only [List.length_nil]
  omega

theorem cardSum_pickBlind (s : GameState) (pid : String) :
    cardSum (pickBlindStep s pid) = cardSum s := by
  unfold pickBlindStep
  cases h : s.players.findIdx? (fun p => p.id = pid) with
  | none => rfl
  | some playerIndex =>
    dsimp only
    split
    · rfl
    · have hlt : playerIndex < s.players.length :=
        (List.findIdx?_eq_some_iff_findIdx_eq.mp h).1
      rw [mapWithIndex_eq_updateAt]
      unfold cardSum handSizeSum tricksSizeSum
      dsimp only
      rw [sum_map_updateAt_add s.players playerIndex _
          (fun p => p.cards.length) s.deck.length hlt (fun a => by simp),
        map_updateAt_invariant s.players playerIndex
          (fun player =>
            { player with isPicker := true, cards := player.cards ++ s.deck })
          (fun p => (p.tricksWon.map List.length).sum) (fun a => rfl)]
      simp

theorem cardSum_passBlind (s : GameState) (pid : String) :
    cardSum (passBlindStep s pid) = cardSum s := by
  unfold passBlindStep
  split
  · rfl
  · dsimp only
    cases hm : s.players[((findIdxJS (fun p => p.id = pid) s.players + 1) %
        (s.players.length : Int)).toNat]? with
    | none => rfl
    | some nextPlayer =>
      dsimp only
      split
      · rfl
      · rfl

theorem cardSum_callPartner (s : GameState) (pid partnerId : String) :
    cardSum (callPartnerStep s pid partnerId) = cardSum s := by
  unfold callPartnerStep
  split
  · rfl
  · cases h : s.players.findIdx? (fun p => p.isPicker) with
    | none => rfl
    | some pickerIndex =>
      dsimp only
      cases hg : s.players[pickerIndex]? with
      | none => rfl
      | some picker =>
        dsimp only
        split
        · rfl
        · rw [mapWithIndex_eq_updateAt]
          unfold cardSum handSizeSum tricksSizeSum
          dsimp only
          rw [map_updateAt_invariant s.players pickerIndex
              (fun player => { player with partner := some partnerId })
              (fun p => p.cards.length) (fun a => rfl),
            map_updateAt_invariant s.players pickerIndex
              (fun player => { player with partner := some partnerId })
              (fun p => (p.tricksWon.map List.length).sum) (fun a => rfl)]

theorem cardSum_nextPlayer (s : GameState) :
    cardSum (nextPlayerStep s) = cardSum s := by
  unfold nextPlayerStep
  cases h : s.players.findIdx? (fun p => p.id = s.currentTurn) with
  | none => rfl
  | some i =>
    dsimp only
    cases hg : s.players[(i + 1) % s.players.length]? with
    | none => rfl
    | some p => rfl

theorem cardSum_endGame (s : GameState) :
    cardSum (endGameStep s) = cardSum s := rfl

/-- The two cards of a `BURY_CARDS` action match exactly two of the picker's
hand cards, so the hand filter removes exactly two cards. -/
def buryRemovesTwo (s : GameState) (playerId : String)
    (cards : List Card) : Prop :=
  match s.players.findIdx? (fun p => p.id = playerId && p.isPicker) with
  | none => True
  | some pickerIndex =>
    match s.players[pickerIndex]? with
    | none => True
    | some picker =>
      picker.cards.countP (fun card =>
        cards.any (fun c => c.suit = card.suit && c.rank = card.rank)) = 2

theorem cardSum_bury (s : GameState) (pid : String) (cards : List Card)
    (hbur : s.buried = []) (h2 : buryRemovesTwo s pid cards) :
    cardSum (buryCardsStep s pid cards) = cardSum s := by
  unfold buryCardsStep
  split
  · rfl
  · rename_i hcond
    push_neg at hcond
    cases h : s.players.findIdx? (fun p => p.id = pid && p.isPicker) with
    | none => rfl
    | some pickerIndex =>
      dsimp only
      cases hg : s.players[pickerIndex]? with
      | none => rfl
      | some picker =>
        dsimp only
        unfold buryRemovesTwo at h2
        simp only [h] at h2
        simp only [hg] at h2
        have hrem := length_filter_not_add_countP picker.cards
          (fun card =>
            cards.any (fun c => c.suit = card.suit && c.rank = card.rank))
        rw [h2] at hrem
        rw [mapWithIndex_eq_updateAt]
        have hh := sum_map_updateAt_get s.players pickerIndex
          (fun player =>
            { player with cards := picker.cards.filter (fun card =>
                !(cards.any (fun c =>
                  c.suit = card.suit && c.rank = card.rank))) })
          (fun p => p.cards.length) picker hg
        have httw := map_updateAt_invariant s.players pickerIndex
          (fun player =>
            { player with cards := picker.cards.filter (fun card =>
                !(cards.any (fun c =>
                  c.suit = card.suit && c.rank = card.rank))) })
          (fun p => (p.tricksWon.map List.length).sum) (fun a => rfl)
        unfold cardSum handSizeSum tricksSizeSum
        dsimp only
        rw [httw, hbur]
        simp only [List.length_nil] at *
        omega

/-- The first player still holds a card, so `END_TRICK` does not cascade
into `END_ROUND`. -/
def noRoundCascade (s : GameState) : Prop :=
  ∀ p0, s.players.head? = some p0 → p0.cards ≠ []

theorem cardSum_endTrick (s : GameState)
    (hids : (s.players.map Player.id).Nodup) (hnc : noRoundCascade s) :
    cardSum (endTrickStep s) = cardSum s := by
  unfold endTrickStep
  split
  · rfl
  · rename_i hlen
    push_neg at hlen
    cases hps : s.players with
    | nil => simp [hps]
    | cons q qs =>
      dsimp only
      rw [← hps]
      have hne : s.currentTrick ≠ [] := by
        intro hnil
        rw [hnil, hps] at hlen
        simp at hlen
      have hwmem := determineTrickWinner_mem s.currentTrick
        (s.leadSuit.getD Suit.CLUBS) s.players hne hlen
      set w := determineTrickWinner s.currentTrick
        (s.leadSuit.getD Suit.CLUBS) s.players with hw
      have hhd : (s.players.map (fun player =>
          if player.id = w then
            { player with tricksWon := player.tricksWon ++ [s.currentTrick] }
          else player)).head? =
          some (if q.id = w then
            { q with tricksWon := q.tricksWon ++ [s.currentTrick] } else q) := by
        rw [hps]
        rfl
      rw [hhd]
      dsimp only
      have hq0 : s.players.head? = some q := by rw [hps]; rfl
      have hqcards : q.cards ≠ [] := hnc q hq0
      have hcards_eq : (if q.id = w then
          { q with tricksWon := q.tricksWon ++ [s.currentTrick] }
          else q).cards = q.cards := by
        split <;> rfl
      rw [if_neg (by
        rw [List.isEmpty_iff, hcards_eq]
        exact hqcards)]
      unfold cardSum
      dsimp only
      have haward := tricksSizeSum_award s.players w s.currentTrick hids hwmem
      have hhand : handSizeSum (s.players.map (fun player =>
          if player.id = w then
            { player with tricksWon := player.tricksWon ++ [s.currentTrick] }
          else player)) = handSizeSum s.players := by
        unfold handSizeSum
        rw [map_map_congr]
        intro a
        split <;> rfl
      rw [haward, hhand]
      simp
      omega

/-- The card of a `PLAY_CARD` action matches exactly one card of the acting
player's hand. -/
def playRemovesOne (s : GameState) (playerId : String) (card : Card) : Prop :=
  match s.players.findIdx? (fun p => p.id = playerId) with
  | none => True
  | some playerIndex =>
    match s.players[playerIndex]? with
    | none => True
    | some player =>
      player.cards.countP
        (fun c => c.suit = card.suit && c.rank = card.rank) = 1

/-- After removing the played card, the first player still holds a card, so
a completed trick does not cascade into `END_ROUND`. -/
def playNoRoundCascade (s : GameState) (card : Card) : Prop :=
  ∀ p0, s.players.head? = some p0 →
    p0.cards.filter
      (fun c => !(c.suit = card.suit && c.rank = card.rank)) ≠ []

theorem cardSum_playCard (s : GameState) (pid : String) (card : Card)
    (hids : (s.players.map Player.id).Nodup)
    (h1 : playRemovesOne s pid card)
    (hnc : playNoRoundCascade s card) :
    cardSum (playCardStep s pid card) = cardSum s := by
  unfold playCardStep
  split
  · rfl
  · cases h : s.players.findIdx? (fun p => p.id = pid) with
    | none => rfl
    | some playerIndex =>
      dsimp only
      cases hg : s.players[playerIndex]? with
      | none => rfl
      | some player =>
        dsimp only
        split
        · rfl
        · unfold playRemovesOne at h1
          simp only [h] at h1
          simp only [hg] at h1
          have hrem := length_filter_not_add_countP player.cards
            (fun c => c.suit = card.suit && c.rank = card.rank)
          rw [h1] at hrem
          rw [mapWithIndex_eq_updateAt]
          set ups := updateAt s.players playerIndex (fun p =>
            { p with cards := p.cards.filter (fun c =>
                !(c.suit = card.suit && c.rank = card.rank)) }) with hups
          have hh := sum_map_updateAt_get s.players playerIndex (fun p =>
            { p with cards := p.cards.filter (fun c =>
                !(c.suit = card.suit && c.rank = card.rank)) })
            (fun p => p.cards.length) player hg
          rw [← hups] at hh
          have httw := congrArg List.sum
            (map_updateAt_invariant s.players playerIndex (fun p =>
              { p with cards := p.cards.filter (fun c =>
                  !(c.suit = card.suit && c.rank = card.rank)) })
              (fun p => (p.tricksWon.map List.length).sum) (fun a => rfl))
          rw [← hups] at httw
          have hidups : (ups.map Player.id).Nodup := by
            rw [hups, map_updateAt_invariant s.players playerIndex (fun p =>
              { p with cards := p.cards.filter (fun c =>
                  !(c.suit = card.suit && c.rank = card.rank)) })
              Player.id (fun a => rfl)]
            exact hids
          have hncups : ∀ p0, ups.head? = some p0 → p0.cards ≠ [] := by
            intro p0 hp0
            rw [hups, updateAt_head?] at hp0
            cases hps : s.players with
            | nil =>
              rw [hps] at hp0
              by_cases hpi : playerIndex = 0 <;> simp [hpi] at hp0
            | cons q qs =>
              have hq0 : s.players.head? = some q := by rw [hps]; rfl
              have hfq := hnc q hq0
              by_cases hpi : playerIndex = 0
              · rw [if_pos hpi, hq0] at hp0
                dsimp only [Option.map] at hp0
                injection hp0 with hp0
                rw [← hp0]
                exact hfq
              · rw [if_neg hpi, hq0] at hp0
                injection hp0 with hp0
                rw [← hp0]
                intro hqnil
                apply hfq
                rw [hqnil]
                rfl
          split
          · refine Eq.trans (cardSum_endTrick _ ?_ ?_) ?_
            · exact hidups
            · intro p0 hp0
              exact hncups p0 hp0
            · unfold cardSum handSizeSum tricksSizeSum
              dsimp only
              simp only [List.length_append, List.length_cons,
                List.length_nil] at *
              omega
          · unfold cardSum handSizeSum tricksSizeSum
            dsimp only
            simp only [List.length_append, List.length_cons,
              List.length_nil] at *
            omega

/-! ## Concrete fixtures -/

/-- A three-player roster: the source's setup screen uses one human and
AI opponents. -/
def seeds3 : List PlayerSeed :=
  [⟨"p0", "P0", true⟩, ⟨"p1", "P1", false⟩, ⟨"p2", "P2", false⟩]

/-- Random draws under which the Fisher-Yates shuffle swaps every index with
itself, i.e. a possible run of `Math.random` that leaves the deck in
construction order. -/
def jsId : List Nat := ((List.range 31).map (· + 1)).reverse

/-- The state right after `START_GAME` with three players and the identity
shuffle: dealer `p0`, turn `p1`, 10 cards each, blind = K and A of
diamonds. -/
def sStart : GameState := gameReducer initialState (.startGame seeds3 jsId)

/-! ## Combined conservation hypothesis (claim C3) -/

/-- The proviso under which a transition preserves the 32-card total: bury
and play actions must reference cards genuinely held (the source accepts
foreign cards and conjures or loses cards), and the round-ending reset
(which discards hands and tricks) must not run. -/
def preservesCardHyp (s : GameState) (a : Action) : Prop :=
  match a with
  | .buryCards pid cards => s.buried = [] ∧ buryRemovesTwo s pid cards
  | .playCard pid card => playRemovesOne s pid card ∧ playNoRoundCascade s card
  | .endTrick => noRoundCascade s
  | .endRound => False
  | _ => True

theorem natCast_succ_emod_toNat (i n : Nat) :
    (((i : Int) + 1) % (n : Int)).toNat = (i + 1) % n := by
  have h1 : ((i : Int) + 1) % (n : Int) = (((i + 1) % n : Nat) : Int) := by
    push_cast
    ring
  omega

/-! ## Claim theorems -/

set_option maxRecDepth 10000 in
/-- C2 (counterexample): the claim "an illegal action (wrong actor, wrong
phase, or rule violation) leaves the state unchanged" is false: in the
3-player game right after dealing the player-to-act is `p1`, yet a
`PICK_BLIND` by `p2` is accepted and changes the state (the reducer's
`PICK_BLIND` case never consults `currentTurn`). -/
theorem c2_wrong_actor_pick_accepted :
    sStart.phase = GamePhase.PICKING ∧ sStart.currentTurn = "p1" ∧
    gameReducer sStart (.pickBlind "p2") ≠ sStart := by decide

/-- C2 (amended): a player action whose tag does not match the current phase
is a no-op, and `PLAY_CARD` additionally rejects a wrong actor; the wrong-
actor check is absent from `PICK_BLIND` and `PASS_BLIND`, and `BURY_CARDS`
accepts cards outside the picker's hand. -/
theorem c2_illegal_actions_amended :
    ∀ (s : GameState) (pid partnerId : String) (c : Card) (cs : List Card),
      (s.phase ≠ GamePhase.PICKING → gameReducer s (.pickBlind pid) = s ∧
        gameReducer s (.passBlind pid) = s) ∧
      (s.phase ≠ GamePhase.BURYING → gameReducer s (.buryCards pid cs) = s) ∧
      (s.phase ≠ GamePhase.CALLING_PARTNER →
        gameReducer s (.callPartner pid partnerId) = s) ∧
      (s.phase ≠ GamePhase.PLAYING → gameReducer s (.playCard pid c) = s) ∧
      (s.currentTurn ≠ pid → gameReducer s (.playCard pid c) = s) := by
  intro s pid partnerId c cs
  refine ⟨fun hp => ⟨?_, ?_⟩, fun hp => ?_, fun hp => ?_,
    fun hp => ?_, fun ht => ?_⟩
  · show pickBlindStep s pid = s
    unfold pickBlindStep
    cases h : s.players.findIdx? (fun p => p.id = pid) with
    | none => rfl
    | some i =>
      dsimp only
      rw [if_pos hp]
  · show passBlindStep s pid = s
    unfold passBlindStep
    rw [if_pos hp]
  · show buryCardsStep s pid cs = s
    unfold buryCardsStep
    rw [if_pos (Or.inl hp)]
  · show callPartnerStep s pid partnerId = s
    unfold callPartnerStep
    rw [if_pos hp]
  · show playCardStep s pid c = s
    unfold playCardStep
    rw [if_pos (Or.inl hp)]
  · show playCardStep s pid c = s
    unfold playCardStep
    rw [if_pos (Or.inr ht)]

set_option maxRecDepth 10000 in
/-- C2 (witness): the amended statement applied in the dealt 3-player game:
a `BURY_CARDS` in the PICKING phase is rejected. -/
theorem c2_illegal_actions_witness :
    sStart.phase ≠ GamePhase.BURYING ∧
    gameReducer sStart (.buryCards "p1" []) = sStart :=
  ⟨by decide,
    (c2_illegal_actions_amended sStart "p1" "p2" (mkCard .CLUBS .SEVEN)
      []).2.1 (by decide)⟩

set_option maxRecDepth 10000 in
/-- C3 (counterexample): the card-count invariant is not preserved by every
accepted transition: after dealing (sum 32) and a pick, a `BURY_CARDS` whose
two cards are not in the picker's hand is accepted (the phase advances to
PLAYING), yet the total becomes 34 — the foreign cards enter the buried pile
while the hand loses nothing. -/
theorem c3_bury_foreign_cards_breaks_sum :
    cardSum (gameReducer initialState (.startGame seeds3 jsId)) = 32 ∧
    (gameReducer (gameReducer sStart (.pickBlind "p1"))
      (.buryCards "p1" [mkCard .CLUBS .EIGHT, mkCard .CLUBS .NINE])).phase =
      GamePhase.PLAYING ∧
    cardSum (gameReducer (gameReducer sStart (.pickBlind "p1"))
      (.buryCards "p1" [mkCard .CLUBS .EIGHT, mkCard .CLUBS .NINE])) = 34 := by
  decide

/-- C3 (amended): `START_GAME` establishes the 32-card total, and every
transition except the round-ending reset preserves it, provided player ids
are distinct, `BURY_CARDS` buries onto an empty pile two cards matching
exactly two hand cards, and `PLAY_CARD` plays a card matching exactly one
hand card and does not cascade into `END_ROUND`. -/
theorem c3_card_conservation_amended :
    (∀ (s : GameState) (a : Action), (s.players.map Player.id).Nodup →
      preservesCardHyp s a → cardSum s = 32 →
      cardSum (gameReducer s a) = 32) ∧
    (∀ (s : GameState) (seeds : List PlayerSeed) (js : List Nat),
      cardSum (gameReducer s (.startGame seeds js)) = 32) := by
  constructor
  · intro s a hids hhyp hsum
    cases a with
    | startGame seeds js => exact cardSum_startGame s seeds js
    | pickBlind pid =>
      show cardSum (pickBlindStep s pid) = 32
      rw [cardSum_pickBlind]
      exact hsum
    | passBlind pid =>
      show cardSum (passBlindStep s pid) = 32
      rw [cardSum_passBlind]
      exact hsum
    | buryCards pid cards =>
      show cardSum (buryCardsStep s pid cards) = 32
      obtain ⟨hb, h2⟩ := hhyp
      rw [cardSum_bury s pid cards hb h2]
      exact hsum
    | callPartner pid partnerId =>
      show cardSum (callPartnerStep s pid partnerId) = 32
      rw [cardSum_callPartner]
      exact hsum
    | playCard pid card =>
      show cardSum (playCardStep s pid card) = 32
      obtain ⟨h1, hnc⟩ := hhyp
      rw [cardSum_playCard s pid card hids h1 hnc]
      exact hsum
    | nextPlayer =>
      show cardSum (nextPlayerStep s) = 32
      rw [cardSum_nextPlayer]
      exact hsum
    | endTrick =>
      show cardSum (endTrickStep s) = 32
      rw [cardSum_endTrick s hids hhyp]
      exact hsum
    | endRound => exact hhyp.elim
    | endGame =>
      show cardSum (endGameStep s) = 32
      rw [cardSum_endGame]
      exact hsum
  · intro s seeds js
    exact cardSum_startGame s seeds js

set_option maxRecDepth 10000 in
/-- C3 (witness): the preservation statement applied to a legitimate pick in
the dealt 3-player game. -/
theorem c3_card_conservation_witness :
    (sStart.players.map Player.id).Nodup ∧ cardSum sStart = 32 ∧
    cardSum (gameReducer sStart (.pickBlind "p1")) = 32 :=
  ⟨by decide, by decide,
    c3_card_conservation_amended.1 sStart (.pickBlind "p1") (by decide)
      trivial (by decide)⟩

set_option maxRecDepth 10000 in
/-- C4 (counterexample): when every player has passed, the claim says the
turn starts at the seat after the dealer; in the 3-player game (dealer `p0`,
seats `p0 p1 p2`) the two passes by `p1` and `p2` produce the leaster state
with `currentTurn = "p0"` — the dealer's own seat, not `"p1"`. -/
theorem c4_all_pass_turn_is_dealer :
    (gameReducer (gameReducer sStart (.passBlind "p1"))
        (.passBlind "p2")).phase = GamePhase.PLAYING ∧
    (gameReducer (gameReducer sStart (.passBlind "p1"))
        (.passBlind "p2")).isLeaster = true ∧
    (∀ p ∈ (gameReducer (gameReducer sStart (.passBlind "p1"))
        (.passBlind "p2")).players, p.isPicker = false) ∧
    (gameReducer (gameReducer sStart (.passBlind "p1"))
        (.passBlind "p2")).players.findIdx? (fun p => p.isDealer) = some 0 ∧
    (gameReducer (gameReducer sStart (.passBlind "p1"))
        (.passBlind "p2")).players.map Player.id = ["p0", "p1", "p2"] ∧
    (gameReducer (gameReducer sStart (.passBlind "p1"))
        (.passBlind "p2")).currentTurn = "p0" := by
  decide

/-- C4 (amended): in the PICKING phase a pass advances the player-to-act to
the seat after the passer; when that seat is the dealer's, the phase becomes
PLAYING with `isLeaster = true`, the players (hence any picker flags) are
untouched, and the turn is set to the dealer's own seat. -/
theorem c4_pass_blind_amended :
    ∀ (s : GameState) (pid : String) (i d : Nat),
      s.phase = GamePhase.PICKING →
      s.players.findIdx? (fun p => p.id = pid) = some i →
      s.players.findIdx? (fun p => p.isDealer) = some d →
      ((i + 1) % s.players.length = d →
        ∃ h : d < s.players.length,
          gameReducer s (.passBlind pid) =
            { s with
              currentTurn := (s.players.get ⟨d, h⟩).id
              phase := GamePhase.PLAYING
              isLeaster := true }) ∧
      ((i + 1) % s.players.length ≠ d →
        ∃ h : (i + 1) % s.players.length < s.players.length,
          gameReducer s (.passBlind pid) =
            { s with currentTurn :=
                (s.players.get ⟨(i + 1) % s.players.length, h⟩).id }) := by
  intro s pid i d hph hi hd
  have hdlt : d < s.players.length :=
    (List.findIdx?_eq_some_iff_findIdx_eq.mp hd).1
  have hpos : 0 < s.players.length := by omega
  have hnlt : (i + 1) % s.players.length < s.players.length :=
    Nat.mod_lt _ hpos
  have hred : gameReducer s (.passBlind pid) = passBlindStep s pid := rfl
  rw [hred]
  unfold passBlindStep
  rw [if_neg (by simp [hph])]
  unfold findIdxJS
  rw [hi, hd]
  dsimp only
  rw [natCast_succ_emod_toNat i s.players.length]
  rw [List.getElem?_eq_getElem hnlt]
  dsimp only
  constructor
  · intro heq
    refine ⟨hdlt, ?_⟩
    rw [if_pos (by exact_mod_cast congrArg Nat.cast heq)]
    rw [List.get_eq_getElem]
    subst heq
    rfl
  · intro hne
    refine ⟨hnlt, ?_⟩
    rw [if_neg (by
      intro hcast
      apply hne
      exact_mod_cast hcast)]
    rw [List.get_eq_getElem]

set_option maxRecDepth 10000 in
/-- C4 (witness): the amended statement applied to the final pass of the
3-player game: seat after the passer `p2` is the dealer's seat 0, so the
leaster transition fires with the turn on the dealer. -/
theorem c4_pass_blind_witness :
    ∃ h : 0 < (gameReducer sStart (.passBlind "p1")).players.length,
      gameReducer (gameReducer sStart (.passBlind "p1")) (.passBlind "p2") =
        { gameReducer sStart (.passBlind "p1") with
          currentTurn := ((gameReducer sStart
            (.passBlind "p1")).players.get ⟨0, h⟩).id
          phase := GamePhase.PLAYING
          isLeaster := true } :=
  (c4_pass_blind_amended (gameReducer sStart (.passBlind "p1")) "p2" 2 0
    (by decide) (by decide) (by decide)).1 (by decide)

/-- A player holding no cards, used where only the id matters. -/
def plainPlayer (i : String) : Player :=
  { id := i, name := i, cards := [], score := 0, isDealer := false,
    isPicker := false, partner := none, tricksWon := [], isHuman := false }

/-- C1 (code bug): on the trick 7 of hearts, Queen of clubs, 8 of hearts
(hearts led, players `p0 p1 p2` in play order from the leader), the winning
card is the Queen of clubs — the only trump, power 31 — played at index 1,
i.e. by `p1`; yet `determineTrickWinner` answers `"p2"`.  Its final lookup
`players.findIndex(p => p.id === players[winningIndex].id)` finds
`winningIndex` itself, so the returned seat is `2 * winningIndex mod n`. -/
theorem c1_trick_winner_wrong_seat :
    (winningOfTrick Suit.HEARTS (mkCard .HEARTS .SEVEN)
      [mkCard .CLUBS .QUEEN, mkCard .HEARTS .EIGHT]).1 =
        mkCard .CLUBS .QUEEN ∧
    (winningOfTrick Suit.HEARTS (mkCard .HEARTS .SEVEN)
      [mkCard .CLUBS .QUEEN, mkCard .HEARTS .EIGHT]).2 = 1 ∧
    (mkCard .CLUBS .QUEEN).isTrump = true ∧
    getCardPower (mkCard .CLUBS .QUEEN) = 31 ∧
    determineTrickWinner
      [mkCard .HEARTS .SEVEN, mkCard .CLUBS .QUEEN, mkCard .HEARTS .EIGHT]
      Suit.HEARTS [plainPlayer "p0", plainPlayer "p1", plainPlayer "p2"] =
      "p2" ∧
    ("p1" : String) ≠ "p2" := by decide

/-- C7 (counterexample): `getCardPower` is not injective over the 32 cards:
the 7 of clubs and the 7 of spades are distinct deck cards with power 0
(plain-suited powers repeat across the three plain suits). -/
theorem c7_power_not_injective :
    mkCard .CLUBS .SEVEN ∈ deckBase ∧ mkCard .SPADES .SEVEN ∈ deckBase ∧
    mkCard .CLUBS .SEVEN ≠ mkCard .SPADES .SEVEN ∧
    getCardPower (mkCard .CLUBS .SEVEN) =
      getCardPower (mkCard .SPADES .SEVEN) := by decide

/-- C7 (amended): over the 32 deck cards, any two distinct cards of equal
power are plain-suited cards of the same rank in different suits; in
particular `getCardPower` is injective on trumps and within each suit. -/
theorem c7_power_injective_amended :
    ∀ c1 ∈ deckBase, ∀ c2 ∈ deckBase, c1 ≠ c2 →
      getCardPower c1 = getCardPower c2 →
      c1.isTrump = false ∧ c2.isTrump = false ∧ c1.rank = c2.rank ∧
        c1.suit ≠ c2.suit := by decide

/-- C7 (witness): the amended statement applied to the two black aces. -/
theorem c7_power_injective_witness :
    (mkCard .CLUBS .ACE).isTrump = false ∧
    (mkCard .SPADES .ACE).isTrump = false ∧
    (mkCard .CLUBS .ACE).rank = (mkCard .SPADES .ACE).rank ∧
    (mkCard .CLUBS .ACE).suit ≠ (mkCard .SPADES .ACE).suit :=
  c7_power_injective_amended (mkCard .CLUBS .ACE) (by decide)
    (mkCard .SPADES .ACE) (by decide) (by decide) (by decide)

/-- C9 (confirmed): a trump card is always a valid play on a non-empty
trick, whatever the hand, the trick and the lead suit: both rejecting
branches of `isValidPlay` require the played card to be non-trump. -/
theorem c9_trump_always_valid :
    ∀ (card : Card) (player : Player) (trick : List Card)
      (leadSuit : Option Suit),
      card.isTrump = true → trick ≠ [] →
      isValidPlay card player trick leadSuit = true := by
  intro card player trick ls htr hne
  cases trick with
  | nil => exact absurd rfl hne
  | cons c0 rest => cases ls <;> simp [isValidPlay, htr]

/-- C9 (witness): the Queen of clubs may be played from a hand holding a
heart onto a heart-led trick. -/
theorem c9_trump_always_valid_witness :
    isValidPlay (mkCard .CLUBS .QUEEN)
      { plainPlayer "x" with cards := [mkCard .HEARTS .ACE] }
      [mkCard .HEARTS .SEVEN] (some Suit.HEARTS) = true :=
  c9_trump_always_valid (mkCard .CLUBS .QUEEN)
    { plainPlayer "x" with cards := [mkCard .HEARTS .ACE] }
    [mkCard .HEARTS .SEVEN] (some Suit.HEARTS) (by decide) (by decide)

/-- The 30 cards left after removing the 7 and 8 of clubs (the two
zero-value buried cards of the C5 scenario) from the deck. -/
def rest30 : List Card := deckBase.drop 2

/-- A finished 5-player round in which the picker `a` (partner `b`) buried
the two zero-value clubs and the picker team won all six tricks. -/
def c5State : GameState :=
  { gameId := "g"
    players :=
      [ { plainPlayer "a" with
          isPicker := true
          partner := some "b"
          isDealer := true
          tricksWon := [rest30.take 5, (rest30.drop 5).take 5,
            (rest30.drop 10).take 5] },
        { plainPlayer "b" with
          tricksWon := [(rest30.drop 15).take 5, (rest30.drop 20).take 5,
            (rest30.drop 25).take 5] },
        plainPlayer "c", plainPlayer "d", plainPlayer "e" ]
    currentTurn := "a"
    phase := GamePhase.SCORING
    deck := []
    buried := [mkCard .CLUBS .SEVEN, mkCard .CLUBS .EIGHT]
    currentTrick := []
    leadSuit := none
    roundNumber := 1
    trickNumber := 0
    isLeaster := false
    isDoubler := false
    isReDoubler := false
    calledAce := none }

/-- C5 (confirmed): `calculateGameScore` credits each team with the points
of its won tricks, adds the buried points to the picker team, and declares
the picker team winner exactly when its total (buried included) reaches 61;
on the concrete all-tricks-to-the-picker round it reports 120 to 0. -/
theorem c5_score_round :
    (∀ s : GameState,
      (calculateGameScore s).pickerTeamScore =
        ((s.players.filter (onPickerTeam s.players)).map trickPts).sum +
          calculatePoints s.buried ∧
      (calculateGameScore s).defenderTeamScore =
        ((s.players.filter
          (fun p => !onPickerTeam s.players p)).map trickPts).sum ∧
      ((calculateGameScore s).isPicKerTeamWinner = true ↔
        61 ≤ (calculateGameScore s).pickerTeamScore)) ∧
    calculateGameScore c5State =
      { pickerTeamScore := 120, defenderTeamScore := 0,
        isPicKerTeamWinner := true, pointsWon := 120 } := by
  constructor
  · intro s
    unfold calculateGameScore
    dsimp only
    refine ⟨?_, ?_, ?_⟩
    · by_cases hb : 0 < s.buried.length
      · rw [if_pos hb, foldl_add_eq_sum]
        omega
      · rw [if_neg hb]
        have hnil : s.buried = [] := List.length_eq_zero.mp (by omega)
        have hz : calculatePoints s.buried = 0 := by rw [hnil]; rfl
        rw [foldl_add_eq_sum]
        omega
    · rw [foldl_add_eq_sum]
      omega
    · exact decide_eq_true_iff
  · decide

/-! ## The leaster scoring fold -/

theorem leasterFold_le (ps : List Player) (acc : Nat × String)
    (h : ∀ p ∈ ps, trickPts p ≤ acc.1) :
    ps.foldl (fun acc p =>
      if acc.1 < trickPts p then (trickPts p, p.id) else acc) acc = acc := by
  induction ps with
  | nil => rfl
  | cons q qs ih =>
    rw [List.foldl_cons,
      if_neg (by
        have := h q (List.mem_cons_self q qs)
        omega)]
    exact ih (fun p hp => h p (List.mem_cons_of_mem q hp))

theorem leasterFold_lt (ps : List Player) (acc : Nat × String) (T : Nat)
    (h : ∀ p ∈ ps, trickPts p < T) (hacc : acc.1 < T) :
    (ps.foldl (fun acc p =>
      if acc.1 < trickPts p then (trickPts p, p.id) else acc) acc).1 < T := by
  induction ps generalizing acc with
  | nil => exact hacc
  | cons q qs ih =>
    rw [List.foldl_cons]
    apply ih
    · exact fun p hp => h p (List.mem_cons_of_mem q hp)
    · by_cases hq : acc.1 < trickPts q
      · rw [if_pos hq]
        exact h q (List.mem_cons_self q qs)
      · rw [if_neg hq]
        exact hacc

/-- The running-maximum fold of the leaster branch lands on the earliest
player achieving the (positive) maximum. -/
theorem leasterResult_exact (ps₁ : List Player) (p : Player)
    (ps₂ : List Player) (h1 : ∀ q ∈ ps₁, trickPts q < trickPts p)
    (h2 : ∀ q ∈ ps₂, trickPts q ≤ trickPts p) (hpos : 0 < trickPts p) :
    leasterResult (ps₁ ++ p :: ps₂) = (trickPts p, p.id) := by
  unfold leasterResult
  rw [List.foldl_append, List.foldl_cons]
  have hpre := leasterFold_lt ps₁ (0, "") (trickPts p) h1 hpos
  rw [if_pos hpre]
  exact leasterFold_le ps₂ (trickPts p, p.id) (by
    intro q hq
    exact h2 q hq)

/-- All trick-point totals zero: the fold never improves on `(0, '')`. -/
theorem leasterResult_allzero (ps : List Player)
    (h : ∀ q ∈ ps, trickPts q = 0) : leasterResult ps = (0, "") :=
  leasterFold_le ps (0, "") (fun p hp => by rw [h p hp])

theorem map_mapIdxAux_invariant (f : Nat → α → α) (h : α → β)
    (hf : ∀ i a, h (f i a) = h a) (l : List α) (i : Nat) :
    (mapIdxAux f i l).map h = l.map h := by
  induction l generalizing i with
  | nil => rfl
  | cons a as ih => simp [mapIdxAux, hf, ih]

theorem mapIdxAux_map (f : Nat → β → γ) (g : α → β) (l : List α) (i : Nat) :
    mapIdxAux f i (l.map g) = mapIdxAux (fun j a => f j (g a)) i l := by
  induction l generalizing i with
  | nil => rfl
  | cons a as ih => simp [mapIdxAux, ih]

theorem mapIdxAux_congr (f g : Nat → α → β) (l : List α) (i : Nat)
    (h : ∀ j a, f j a = g j a) : mapIdxAux f i l = mapIdxAux g i l := by
  induction l generalizing i with
  | nil => rfl
  | cons a as ih => simp [mapIdxAux, h, ih]

theorem map_mapWithIndex_invariant (f : Nat → α → α) (h : α → β)
    (hf : ∀ i a, h (f i a) = h a) {l : List α} :
    (mapWithIndex f l).map h = l.map h :=
  map_mapIdxAux_invariant f h hf l 0

/-- The dealer-rotation map of `END_ROUND` does not change scores. -/
theorem map_score_rotate (l : List Player) (nd : Nat) :
    (mapWithIndex (fun idx player =>
      { player with
        isDealer := idx = nd
        isPicker := false
        partner := none
        cards := []
        tricksWon := [] }) l).map Player.score = l.map Player.score := by
  unfold mapWithIndex
  exact map_mapIdxAux_invariant (fun idx player =>
    { player with
      isDealer := idx = nd
      isPicker := false
      partner := none
      cards := []
      tricksWon := [] }) Player.score (fun i a => rfl) l 0

/-- Scores assigned by `END_ROUND` (after the map and the dealer rotation)
read off by position. -/
theorem endRound_scores_map (s : GameState) :
    (gameReducer s .endRound).players.map Player.score =
      s.players.map (fun player => Player.score (
        if !s.isLeaster then
          match s.players.find? (fun p => p.isPicker) with
          | some pk =>
            if (player.isPicker || pk.partner = some player.id) &&
                (calculateGameScore s).isPicKerTeamWinner ||
                (!(player.isPicker || pk.partner = some player.id) &&
                  !(calculateGameScore s).isPicKerTeamWinner) then
              { player with score := player.score +
                  (if player.isPicker || pk.partner = some player.id then
                    (calculateGameScore s).pickerTeamScore
                  else (calculateGameScore s).defenderTeamScore) }
            else player
          | none => player
        else
          if player.id = (leasterResult s.players).2 then
            { player with score := player.score + (leasterResult s.players).1 }
          else player)) := by
  show (endRoundStep s).players.map Player.score = _
  unfold endRoundStep
  dsimp only
  rw [map_score_rotate, List.map_map]
  rfl

theorem map_score_award_ne (l : List Player) (w : String) (k : Nat)
    (h : ∀ q ∈ l, q.id ≠ w) :
    l.map (fun q => Player.score (if q.id = w then
      { q with score := q.score + k } else q)) = l.map Player.score :=
  List.map_congr_left (fun q hq => by rw [if_neg (h q hq)])

/-- In a leaster, the earliest player achieving the (positive) maximal
trick-point total is the only one whose score grows, by that total. -/
theorem endRound_leaster_earliest (s : GameState) (ps₁ : List Player)
    (p : Player) (ps₂ : List Player) (hleast : s.isLeaster = true)
    (hsplit : s.players = ps₁ ++ p :: ps₂)
    (hnd : (s.players.map Player.id).Nodup)
    (h1 : ∀ q ∈ ps₁, trickPts q < trickPts p)
    (h2 : ∀ q ∈ ps₂, trickPts q ≤ trickPts p) (hpos : 0 < trickPts p) :
    (gameReducer s .endRound).players.map Player.score =
      ps₁.map Player.score ++
        (p.score + trickPts p) :: ps₂.map Player.score := by
  rw [endRound_scores_map, hsplit]
  rw [hsplit] at hnd
  have hlr := leasterResult_exact ps₁ p ps₂ h1 h2 hpos
  simp only [hleast, Bool.not_true, Bool.false_eq_true, if_false, hlr]
  have hnd' := hnd
  rw [List.map_append, List.nodup_append] at hnd'
  obtain ⟨hn1, hn2, hdisj⟩ := hnd'
  have hne1 : ∀ q ∈ ps₁, q.id ≠ p.id := by
    intro q hq hqe
    exact hdisj (List.mem_map_of_mem Player.id hq)
      (by rw [hqe, List.map_cons]; exact List.mem_cons_self _ _)
  have hne2 : ∀ q ∈ ps₂, q.id ≠ p.id := by
    intro q hq hqe
    rw [List.map_cons, List.nodup_cons] at hn2
    exact hn2.1 (by rw [← hqe]; exact List.mem_map_of_mem Player.id hq)
  rw [List.map_append, List.map_cons]
  rw [map_score_award_ne ps₁ p.id (trickPts p) hne1,
    map_score_award_ne ps₂ p.id (trickPts p) hne2]
  simp

/-- In a leaster where every trick-point total is zero, no score changes. -/
theorem endRound_leaster_zero (s : GameState) (hleast : s.isLeaster = true)
    (hzero : ∀ q ∈ s.players, trickPts q = 0) :
    (gameReducer s .endRound).players.map Player.score =
      s.players.map Player.score := by
  rw [endRound_scores_map]
  have hlr := leasterResult_allzero s.players hzero
  simp only [hleast, Bool.not_true, Bool.false_eq_true, if_false, hlr]
  apply List.map_congr_left
  intro q hq
  by_cases hqq : q.id = ""
  · rw [if_pos hqq]
    show q.score + 0 = q.score
    omega
  · rw [if_neg hqq]

/-- C10 (confirmed): in a leaster round the strict-improvement fold awards
the round to the earliest player holding the maximal trick-point total: only
that player's cumulative score grows (by their own total), every other
score — including later tied players — is unchanged; when every total is
zero no score changes at all. -/
theorem c10_leaster_scoring :
    (∀ (s : GameState) (ps₁ : List Player) (p : Player) (ps₂ : List Player),
      s.isLeaster = true →
      s.players = ps₁ ++ p :: ps₂ →
      (s.players.map Player.id).Nodup →
      (∀ q ∈ ps₁, trickPts q < trickPts p) →
      (∀ q ∈ ps₂, trickPts q ≤ trickPts p) →
      0 < trickPts p →
      (gameReducer s .endRound).players.map Player.score =
        ps₁.map Player.score ++
          (p.score + trickPts p) :: ps₂.map Player.score) ∧
    (∀ s : GameState, s.isLeaster = true →
      (∀ q ∈ s.players, trickPts q = 0) →
      (gameReducer s .endRound).players.map Player.score =
        s.players.map Player.score) :=
  ⟨endRound_leaster_earliest, endRound_leaster_zero⟩

/-- A three-player leaster round: `q0` took 4 points, `q1` and `q2` tie at
11 points each. -/
def q0 : Player := { plainPlayer "q0" with tricksWon := [[mkCard .CLUBS .KING]] }

def q1 : Player := { plainPlayer "q1" with tricksWon := [[mkCard .CLUBS .ACE]] }

def q2 : Player := { plainPlayer "q2" with tricksWon := [[mkCard .SPADES .ACE]] }

def c10State : GameState :=
  { gameId := "g"
    players := [q0, q1, q2]
    currentTurn := "q0"
    phase := GamePhase.PLAYING
    deck := []
    buried := []
    currentTrick := []
    leadSuit := none
    roundNumber := 1
    trickNumber := 10
    isLeaster := true
    isDoubler := false
    isReDoubler := false
    calledAce := none }

/-- C10 (witness): on the 4-11-11 leaster tie, only `q1` — the earlier of
the two tied players — gains 11 points. -/
theorem c10_leaster_scoring_witness :
    (gameReducer c10State .endRound).players.map Player.score =
      [q0].map Player.score ++
        (q1.score + trickPts q1) :: [q2].map Player.score :=
  c10_leaster_scoring.1 c10State [q0] q1 [q2] (by decide) (by decide)
    (by decide) (by decide) (by decide) (by decide)

/-- The solo picker of the C6 round. -/
def c6Picker : Player :=
  { plainPlayer "a" with
    isPicker := true
    isDealer := true
    tricksWon :=
      [[mkCard .CLUBS .ACE, mkCard .SPADES .ACE, mkCard .HEARTS .ACE,
        mkCard .CLUBS .TEN, mkCard .SPADES .TEN],
       [mkCard .HEARTS .TEN, mkCard .CLUBS .KING, mkCard .SPADES .KING,
        mkCard .HEARTS .KING, mkCard .DIAMONDS .KING]] }

def c6State : GameState :=
  { gameId := "g"
    players :=
      [ c6Picker,
        plainPlayer "b", plainPlayer "c",
        { plainPlayer "d" with
          tricksWon :=
            [[mkCard .CLUBS .QUEEN, mkCard .SPADES .QUEEN,
              mkCard .HEARTS .QUEEN, mkCard .DIAMONDS .QUEEN,
              mkCard .CLUBS .JACK, mkCard .SPADES .JACK,
              mkCard .HEARTS .JACK, mkCard .DIAMONDS .JACK]] },
        plainPlayer "e" ]
    currentTurn := "a"
    phase := GamePhase.PLAYING
    deck := []
    buried := []
    currentTrick := []
    leadSuit := none
    roundNumber := 1
    trickNumber := 10
    isLeaster := false
    isDoubler := false
    isReDoubler := false
    calledAce := none }

/-- C6 (counterexample): the claim says each team's members' scores are
incremented by their team's point total; in the concrete round the losing
defenders hold 20 trick points, yet after `END_ROUND` every defender's
cumulative score is still 0 — only the winning picker gains points. -/
theorem c6_losing_team_gains_nothing :
    (calculateGameScore c6State).isPicKerTeamWinner = true ∧
    (calculateGameScore c6State).defenderTeamScore = 20 ∧
    c6State.players.map Player.score = [0, 0, 0, 0, 0] ∧
    (gameReducer c6State .endRound).players.map Player.score =
      [79, 0, 0, 0, 0] := by decide

/-- C6 (amended): when the last trick resolves, round scoring runs
automatically (the cascaded `END_ROUND` reaches SCORING); the round-end
state carries the original players with hands and won tricks cleared,
picker and partner flags cleared, the dealer rotated one seat, and only the
winning team's members' scores incremented by their team's total (in a
leaster, only the earliest maximal scorer gains points). -/
theorem c6_end_round_amended :
    (∀ (s : GameState) (pk : Player) (d : Nat),
      s.isLeaster = false →
      s.players.find? (fun p => p.isPicker) = some pk →
      s.players.findIdx? (fun p => p.isDealer) = some d →
      (gameReducer s .endRound).phase = GamePhase.SCORING ∧
      (gameReducer s .endRound).roundNumber = s.roundNumber + 1 ∧
      (gameReducer s .endRound).trickNumber = 0 ∧
      (gameReducer s .endRound).isLeaster = false ∧
      (gameReducer s .endRound).players =
        mapWithIndex (fun idx q =>
          { id := q.id, name := q.name, cards := [],
            score := q.score +
              (if q.isPicker = true ∨ pk.partner = some q.id then
                (if (calculateGameScore s).isPicKerTeamWinner = true then
                  (calculateGameScore s).pickerTeamScore
                else 0)
              else
                (if (calculateGameScore s).isPicKerTeamWinner = true then 0
                else (calculateGameScore s).defenderTeamScore)),
            isDealer := idx = (d + 1) % s.players.length,
            isPicker := false, partner := none, tricksWon := [],
            isHuman := q.isHuman }) s.players) ∧
    (∀ (s : GameState) (ps₁ : List Player) (p : Player) (ps₂ : List Player),
      s.isLeaster = true →
      s.players = ps₁ ++ p :: ps₂ →
      (s.players.map Player.id).Nodup →
      (∀ q ∈ ps₁, trickPts q < trickPts p) →
      (∀ q ∈ ps₂, trickPts q ≤ trickPts p) →
      0 < trickPts p →
      (gameReducer s .endRound).players.map Player.score =
        ps₁.map Player.score ++
          (p.score + trickPts p) :: ps₂.map Player.score) ∧
    (∀ (s : GameState) (p0 : Player),
      s.currentTrick.length = s.players.length →
      s.players.head? = some p0 → p0.cards = [] →
      (gameReducer s .endTrick).phase = GamePhase.SCORING) := by
  refine ⟨?_, endRound_leaster_earliest, ?_⟩
  · intro s pk d hleast hpk hd
    have hnd : ((findIdxJS (fun p => p.isDealer) s.players + 1) %
        (s.players.length : Int)).toNat = (d + 1) % s.players.length := by
      unfold findIdxJS
      rw [hd]
      exact natCast_succ_emod_toNat d s.players.length
    refine ⟨rfl, rfl, rfl, rfl, ?_⟩
    show (endRoundStep s).players = _
    unfold endRoundStep
    dsimp only
    simp only [hleast, Bool.not_false, if_true, hpk, hnd]
    unfold mapWithIndex
    rw [mapIdxAux_map]
    apply mapIdxAux_congr
    intro j q
    by_cases hteam : (q.isPicker || pk.partner = some q.id) = true
    · by_cases hwin : (calculateGameScore s).isPicKerTeamWinner = true
      · rw [if_pos (by rw [hteam, hwin]; rfl)]
        dsimp only
        rw [if_pos hteam,
          if_pos (by
            rcases Bool.or_eq_true .. |>.mp hteam with h | h
            · exact Or.inl h
            · exact Or.inr (of_decide_eq_true h)),
          if_pos hwin]
      · rw [if_neg (by
          rw [hteam, Bool.eq_false_iff.mpr hwin]
          simp)]
        rw [if_pos (by
            rcases Bool.or_eq_true .. |>.mp hteam with h | h
            · exact Or.inl h
            · exact Or.inr (of_decide_eq_true h)),
          if_neg hwin]
        simp
    · by_cases hwin : (calculateGameScore s).isPicKerTeamWinner = true
      · rw [if_neg (by
          rw [Bool.eq_false_iff.mpr hteam, hwin]
          simp)]
        rw [if_neg (by
            intro hor
            apply hteam
            rcases hor with h | h
            · rw [h]; rfl
            · rw [decide_eq_true h]; simp),
          if_pos hwin]
        simp
      · rw [if_pos (by
          rw [Bool.eq_false_iff.mpr hteam, Bool.eq_false_iff.mpr hwin]
          rfl)]
        dsimp only
        rw [if_neg hteam,
          if_neg (by
            intro hor
            apply hteam
            rcases hor with h | h
            · rw [h]; rfl
            · rw [decide_eq_true h]; simp),
          if_neg hwin]
  · intro s p0 hfull hhd hcards
    show (endTrickStep s).phase = GamePhase.SCORING
    unfold endTrickStep
    rw [if_neg (by simp [hfull])]
    dsimp only
    rw [List.head?_map, hhd]
    dsimp only [Option.map]
    have hc : (if p0.id = determineTrickWinner s.currentTrick
        (s.leadSuit.getD Suit.CLUBS) s.players then
        { p0 with tricksWon := p0.tricksWon ++ [s.currentTrick] }
        else p0).cards = p0.cards := by
      split <;> rfl
    rw [show (if p0.id = determineTrickWinner s.currentTrick
        (s.leadSuit.getD Suit.CLUBS) s.players then
        { p0 with tricksWon := p0.tricksWon ++ [s.currentTrick] }
        else p0).cards.isEmpty = true from by
      rw [hc, hcards]
      rfl]
    rfl

set_option maxRecDepth 10000 in
/-- C6 (witness): the amended characterisation applied to the concrete
79-20 round: the reset, rotation, phase change and winning-team scoring all
hold there. -/
theorem c6_end_round_witness :
    (gameReducer c6State .endRound).phase = GamePhase.SCORING ∧
    (gameReducer c6State .endRound).roundNumber = c6State.roundNumber + 1 ∧
    (gameReducer c6State .endRound).trickNumber = 0 ∧
    (gameReducer c6State .endRound).isLeaster = false ∧
    (gameReducer c6State .endRound).players =
      mapWithIndex (fun idx q =>
        { id := q.id, name := q.name, cards := [],
          score := q.score +
            (if q.isPicker = true ∨ c6Picker.partner = some q.id then
              (if (calculateGameScore c6State).isPicKerTeamWinner = true then
                (calculateGameScore c6State).pickerTeamScore
              else 0)
            else
              (if (calculateGameScore c6State).isPicKerTeamWinner = true
                then 0
              else (calculateGameScore c6State).defenderTeamScore)),
          isDealer := idx = (0 + 1) % c6State.players.length,
          isPicker := false, partner := none, tricksWon := [],
          isHuman := q.isHuman }) c6State.players :=
  c6_end_round_amended.1 c6State c6Picker 0 (by decide) (by decide)
    (by decide)

/-! ## The lead-suit invariant (claim C8) -/

/-- A trump-led (or empty) trick carries no lead suit. -/
def leadSuitInv (s : GameState) : Prop :=
  match s.currentTrick with
  | [] => s.leadSuit = none
  | c0 :: _ => c0.isTrump = true → s.leadSuit = none

/-- `START_GAME` does not clear `leadSuit`, so restarting mid-trick may
leak a stale suit; the invariant survives a restart only from a state with
no lead suit recorded. -/
def startGameLeadOk (s : GameState) : Action → Prop
  | .startGame _ _ => s.leadSuit = none
  | _ => True

theorem leadSuitInv_of_eq (s t : GameState)
    (h1 : t.currentTrick = s.currentTrick) (h2 : t.leadSuit = s.leadSuit)
    (h : leadSuitInv s) : leadSuitInv t := by
  unfold leadSuitInv at *
  rw [h1, h2]
  exact h

theorem leadSuitInv_endRound (s : GameState) (h : leadSuitInv s) :
    leadSuitInv (endRoundStep s) :=
  leadSuitInv_of_eq s (endRoundStep s) rfl rfl h

theorem leadSuitInv_endTrick (s : GameState) (h : leadSuitInv s) :
    leadSuitInv (endTrickStep s) := by
  unfold endTrickStep
  split
  · exact h
  · dsimp only
    cases hm : (s.players.map (fun player =>
        if player.id = determineTrickWinner s.currentTrick
            (s.leadSuit.getD Suit.CLUBS) s.players then
          { player with tricksWon := player.tricksWon ++ [s.currentTrick] }
        else player)).head? with
    | none => exact h
    | some p0 =>
      dsimp only
      split
      · apply leadSuitInv_endRound
        unfold leadSuitInv
        rfl
      · unfold leadSuitInv
        rfl

/-- C8 (amended): the invariant "a trump-led trick has no lead suit" is
preserved by every transition — with `START_GAME` requiring no stale lead
suit, since it does not reset the field — and under the invariant no card
play on a trump-led trick is ever rejected by `isValidPlay` (both rejecting
branches need a recorded lead suit). -/
theorem c8_lead_suit_amended :
    (∀ (s : GameState) (a : Action), leadSuitInv s → startGameLeadOk s a →
      leadSuitInv (gameReducer s a)) ∧
    (∀ s : GameState, leadSuitInv s →
      ∀ (c0 : Card) (rest : List Card), s.currentTrick = c0 :: rest →
      c0.isTrump = true → ∀ (card : Card) (player : Player),
      isValidPlay card player s.currentTrick s.leadSuit = true) := by
  constructor
  · intro s a hinv hok
    cases a with
    | startGame seeds js =>
      show leadSuitInv (startGameStep s seeds js)
      unfold startGameStep
      dsimp only
      unfold leadSuitInv
      exact hok
    | pickBlind pid =>
      show leadSuitInv (pickBlindStep s pid)
      unfold pickBlindStep
      cases h : s.players.findIdx? (fun p => p.id = pid) with
      | none => exact hinv
      | some i =>
        dsimp only
        split
        · exact hinv
        · exact leadSuitInv_of_eq s _ rfl rfl hinv
    | passBlind pid =>
      show leadSuitInv (passBlindStep s pid)
      unfold passBlindStep
      split
      · exact hinv
      · dsimp only
        cases hm : s.players[((findIdxJS (fun p => p.id = pid) s.players +
            1) % (s.players.length : Int)).toNat]? with
        | none => exact hinv
        | some nextPlayer =>
          dsimp only
          split
          · exact leadSuitInv_of_eq s _ rfl rfl hinv
          · exact leadSuitInv_of_eq s _ rfl rfl hinv
    | buryCards pid cards =>
      show leadSuitInv (buryCardsStep s pid cards)
      unfold buryCardsStep
      split
      · exact hinv
      · cases h : s.players.findIdx? (fun p => p.id = pid && p.isPicker) with
        | none => exact hinv
        | some i =>
          dsimp only
          cases hg : s.players[i]? with
          | none => exact hinv
          | some picker =>
            dsimp only
            exact leadSuitInv_of_eq s _ rfl rfl hinv
    | callPartner pid partnerId =>
      show leadSuitInv (callPartnerStep s pid partnerId)
      unfold callPartnerStep
      split
      · exact hinv
      · cases h : s.players.findIdx? (fun p => p.isPicker) with
        | none => exact hinv
        | some i =>
          dsimp only
          cases hg : s.players[i]? with
          | none => exact hinv
          | some picker =>
            dsimp only
            split
            · exact hinv
            · exact leadSuitInv_of_eq s _ rfl rfl hinv
    | playCard pid card =>
      show leadSuitInv (playCardStep s pid card)
      unfold playCardStep
      split
      · exact hinv
      · cases h : s.players.findIdx? (fun p => p.id = pid) with
        | none => exact hinv
        | some playerIndex =>
          dsimp only
          cases hg : s.players[playerIndex]? with
          | none => exact hinv
          | some player =>
            dsimp only
            split
            · exact hinv
            · have hinvNew : ∀ t : GameState,
                  t.currentTrick = s.currentTrick ++ [card] →
                  t.leadSuit = (if s.currentTrick.length = 0 && !card.isTrump
                    then some card.suit else s.leadSuit) →
                  leadSuitInv t := by
                intro t hct hls
                unfold leadSuitInv
                rw [hct, hls]
                cases hsc : s.currentTrick with
                | nil =>
                  dsimp only [List.nil_append]
                  intro htr
                  rw [if_neg (by simp [htr])]
                  unfold leadSuitInv at hinv
                  rw [hsc] at hinv
                  exact hinv
                | cons c0 rest =>
                  dsimp only [List.cons_append]
                  intro htr
                  rw [if_neg (by simp [hsc])]
                  unfold leadSuitInv at hinv
                  rw [hsc] at hinv
                  exact hinv htr
              split
              · exact leadSuitInv_endTrick _ (hinvNew _ rfl rfl)
              · exact hinvNew _ rfl rfl
    | nextPlayer =>
      show leadSuitInv (nextPlayerStep s)
      unfold nextPlayerStep
      cases h : s.players.findIdx? (fun p => p.id = s.currentTurn) with
      | none => exact hinv
      | some i =>
        dsimp only
        cases hg : s.players[(i + 1) % s.players.length]? with
        | none => exact hinv
        | some p => exact leadSuitInv_of_eq s _ rfl rfl hinv
    | endTrick => exact leadSuitInv_endTrick s hinv
    | endRound => exact leadSuitInv_endRound s hinv
    | endGame => exact leadSuitInv_of_eq s _ rfl rfl hinv
  · intro s hinv c0 rest hct htr card player
    have hls : s.leadSuit = none := by
      unfold leadSuitInv at hinv
      rw [hct] at hinv
      exact hinv htr
    rw [hct, hls]
    unfold isValidPlay
    rw [if_neg (by simp)]
    rfl

/-- C8 (witness): invariant preservation applied to a concrete literal
state with an empty trick and no lead suit. -/
theorem c8_lead_suit_witness :
    leadSuitInv (gameReducer c10State (.pickBlind "q0")) :=
  c8_lead_suit_amended.1 c10State (.pickBlind "q0") rfl trivial

/-- The reachable state exhibiting the stale lead suit: lead a heart, then
restart the game mid-trick (`START_GAME` keeps `leadSuit`), pick and bury
again, and lead a trump. -/
def c8Chain : GameState :=
  gameReducer (gameReducer (gameReducer (gameReducer (gameReducer
    (gameReducer (gameReducer (gameReducer initialState
      (.startGame seeds3 jsId))
      (.pickBlind "p1"))
      (.buryCards "p1" [mkCard .CLUBS .SEVEN, mkCard .CLUBS .TEN]))
      (.playCard "p1" (mkCard .HEARTS .NINE)))
      (.startGame seeds3 jsId))
      (.pickBlind "p1"))
      (.buryCards "p1" [mkCard .CLUBS .SEVEN, mkCard .CLUBS .TEN]))
      (.playCard "p1" (mkCard .DIAMONDS .SEVEN))

set_option maxRecDepth 100000 in
/-- C8 (counterexample): in the reachable state `c8Chain` the current trick
is led by the 7 of diamonds — a trump — while `leadSuit` still reads
hearts, left over from before the mid-trick restart; and the play of the
7 of hearts by the player-to-act `p2`, who holds that card, follows the
stale lead suit and holds trump, is rejected (the reducer returns the state
unchanged): the forced-trump branch fires. -/
theorem c8_stale_lead_suit_counterexample :
    c8Chain.currentTrick = [mkCard .DIAMONDS .SEVEN] ∧
    (mkCard .DIAMONDS .SEVEN).isTrump = true ∧
    c8Chain.leadSuit = some Suit.HEARTS ∧
    c8Chain.phase = GamePhase.PLAYING ∧
    c8Chain.currentTurn = "p2" ∧
    (mkCard .HEARTS .SEVEN).suit = Suit.HEARTS ∧
    (∀ p ∈ c8Chain.players, p.id = "p2" →
      mkCard .HEARTS .SEVEN ∈ p.cards ∧
      p.cards.any (fun c => c.isTrump) = true ∧
      isValidPlay (mkCard .HEARTS .SEVEN) p c8Chain.currentTrick
        c8Chain.leadSuit = false) ∧
    gameReducer c8Chain (.playCard "p2" (mkCard .HEARTS .SEVEN)) =
      c8Chain := by decide

end Sheepshead
